import Mathlib

/-! # Chat API: service, repository and handlers

A shallow embedding of the Go packages `models`, `service`, `repository` and
`handlers` of the chat API, together with the contracts of the domain service.

Conventions of the embedding.

* A Go `string` is a Lean `String`: the model covers the strings that are valid
  UTF-8 (every string decoded from a JSON body is).  `len` is the number of
  bytes of the UTF-8 encoding, as in Go.
* `uint` is `Nat` and `int` is `Int`; the code under study compares these
  numbers with constants and never does arithmetic on them.
* A Go `error` is a `GoError`; a nil error or a nil pointer is `none`.
* `context.Context` is passed through unchanged by every function and is left out.
* The repository behind the service is an interface; here it is a record of
  state-passing functions over an arbitrary state type.
-/

/-! ## Go runtime: strings -/

/-- Number of bytes of the UTF-8 encoding of a rune (`utf8.RuneLen`). -/
def runeLen (c : Char) : Nat :=
  if c.toNat < 0x80 then 1
  else if c.toNat < 0x800 then 2
  else if c.toNat < 0x10000 then 3
  else 4

/-- Go builtin `len` on a string: the number of bytes. -/
def len (s : String) : Nat := (s.data.map runeLen).sum

/-- Go `unicode.IsSpace`: the Latin-1 cases spelled out in its switch, then the
`White_Space` range table. -/
def isSpace (c : Char) : Bool :=
  let r := c.toNat
  if r ≤ 0xFF then
    r = 0x09 || r = 0x0A || r = 0x0B || r = 0x0C || r = 0x0D || r = 0x20 || r = 0x85 || r = 0xA0
  else
    r = 0x1680 || (0x2000 ≤ r && r ≤ 0x200A) || r = 0x2028 || r = 0x2029 || r = 0x202F
      || r = 0x205F || r = 0x3000

/-- Go `strings.TrimSpace`: the string without its leading and trailing white space. -/
def TrimSpace (s : String) : String :=
  ⟨(s.data.dropWhile isSpace).rdropWhile isSpace⟩

/-! ## Go runtime: errors -/

/-- Error values: `errorString` is what `errors.New` and `fmt.Errorf` without `%w`
build, `wrapError` is what `fmt.Errorf` with one `%w` builds (the formatted message
and the wrapped error). -/
inductive GoError where
  | errorString (msg : String)
  | wrapError (msg : String) (err : GoError)
  deriving DecidableEq, Repr

namespace GoError

/-- The `Error()` method. -/
def Error : GoError → String
  | errorString msg => msg
  | wrapError msg _ => msg

/-- The `Unwrap()` method (absent on `errorString`, hence `none`). -/
def Unwrap : GoError → Option GoError
  | errorString _ => none
  | wrapError _ err => some err

/-- The unwrap chain walked by `errors.Is`: the error, then what it wraps, and so on. -/
def chain : GoError → List GoError
  | errorString msg => [errorString msg]
  | wrapError msg err => wrapError msg err :: chain err

end GoError

/-- The call `fmt.Errorf(msg)` for a format string without verbs. -/
def Errorf (msg : String) : GoError := GoError.errorString msg

/-- The call `fmt.Errorf(format + "%w", err)`, where `format` has no other verb. -/
def ErrorfW (format : String) (err : GoError) : GoError :=
  GoError.wrapError (format ++ err.Error) err

/-- Go `errors.Is(err, target)` for the error values of this model. -/
def errorsIs (err target : GoError) : Prop := target ∈ err.chain

instance (err target : GoError) : Decidable (errorsIs err target) := by
  unfold errorsIs; infer_instance

/-- Go `strings.Contains(s, substr)`. -/
def Contains (s substr : String) : Prop := substr.data <:+: s.data

/-! ## Package models -/

namespace models

/-- The struct `models.Message`; a `time.Time` is a number, `0` being the zero time. -/
structure Message where
  ID : Nat := 0
  ChatID : Nat := 0
  Text : String := ""
  CreatedAt : Int := 0
  UpdatedAt : Int := 0
  deriving DecidableEq, Repr

/-- The struct `models.Chat`. -/
structure Chat where
  ID : Nat := 0
  Title : String := ""
  CreatedAt : Int := 0
  UpdatedAt : Int := 0
  Messages : List Message := []
  deriving DecidableEq, Repr

end models

/-! ## Package service -/

namespace service

open models

/-- The interface `ChatRepository` of package service.  A method takes the state of
the implementation and returns its results with the new state. -/
structure ChatRepository (σ : Type) where
  Create : Chat → σ → (Option Chat × Option GoError) × σ
  Get : Nat → Int → σ → (Option Chat × Option GoError) × σ
  Delete : Nat → σ → Option GoError × σ
  CreateMessage : Nat → Message → σ → (Option Message × Option GoError) × σ

/-- The method `(*service).CreateChat`. -/
def CreateChat {σ : Type} (repo : ChatRepository σ) (title : String) (st : σ) :
    (Option Chat × Option GoError) × σ :=
  let title := TrimSpace title
  if title = "" then
    ((none, some (Errorf "chat title cannot be empty")), st)
  else if len title > 200 then
    ((none, some (Errorf "chat title cannot exceed 200 characters")), st)
  else
    let chat : Chat := { Title := title }
    repo.Create chat st

/-- The method `(*service).GetChat`.  `delegate` is the part of the body after the
normalisation of `limit`, which runs with the limit held by the variable at that point. -/
def GetChat {σ : Type} (repo : ChatRepository σ) (id : Nat) (limit : Int) (st : σ) :
    (Option Chat × Option GoError) × σ :=
  let delegate := fun (limit : Int) =>
    match repo.Get id limit st with
    | ((_, some err), st1) => ((none, some (ErrorfW "failed to get chat: " err)), st1)
    | ((chat, none), st1) => ((chat, none), st1)
  if id = 0 then
    ((none, some (Errorf "chat ID must be greater than 0")), st)
  else if limit = 0 then
    delegate 20
  else if limit < 0 then
    ((none, some (Errorf "limit cannot be negative")), st)
  else if limit > 100 then
    ((none, some (Errorf "limit cannot exceed 100 messages")), st)
  else
    delegate limit

/-- The method `(*service).DeleteChat`. -/
def DeleteChat {σ : Type} (repo : ChatRepository σ) (id : Nat) (st : σ) :
    Option GoError × σ :=
  if id = 0 then
    (some (Errorf "chat ID must be greater than 0"), st)
  else
    repo.Delete id st

/-- The method `(*service).SendMessage`. -/
def SendMessage {σ : Type} (repo : ChatRepository σ) (chatID : Nat) (text : String) (st : σ) :
    (Option Message × Option GoError) × σ :=
  if chatID = 0 then
    ((none, some (Errorf "chat ID must be greater than 0")), st)
  else
    let text := TrimSpace text
    if text = "" then
      ((none, some (Errorf "message text cannot be empty")), st)
    else if len text > 5000 then
      ((none, some (Errorf "message text cannot exceed 5000 characters")), st)
    else
      let message : Message := { ChatID := chatID, Text := text }
      repo.CreateMessage chatID message st

/-- One call of a repository method, with its arguments. -/
inductive RepoCall where
  | Create (chat : Chat)
  | Get (id : Nat) (limit : Int)
  | Delete (id : Nat)
  | CreateMessage (id : Nat) (message : Message)
  deriving DecidableEq, Repr

/-- A repository that behaves as `repo` and appends every call it receives to a log,
as the `MockChatRepository` of the unit tests records its calls. -/
def recording {σ : Type} (repo : ChatRepository σ) : ChatRepository (σ × List RepoCall) where
  Create chat st :=
    ((repo.Create chat st.1).1, ((repo.Create chat st.1).2, st.2 ++ [RepoCall.Create chat]))
  Get id limit st :=
    ((repo.Get id limit st.1).1, ((repo.Get id limit st.1).2, st.2 ++ [RepoCall.Get id limit]))
  Delete id st :=
    ((repo.Delete id st.1).1, ((repo.Delete id st.1).2, st.2 ++ [RepoCall.Delete id]))
  CreateMessage id message st :=
    ((repo.CreateMessage id message st.1).1,
      ((repo.CreateMessage id message st.1).2, st.2 ++ [RepoCall.CreateMessage id message]))

/-- The `MockChatRepository` of the unit tests, programmed with one return value per
method (`mockRepo.On(...).Return(...)`); it keeps no state. -/
def MockChatRepository (create : Option Chat × Option GoError)
    (get : Option Chat × Option GoError) (delete : Option GoError)
    (createMessage : Option Message × Option GoError) : ChatRepository Unit where
  Create _ st := (create, st)
  Get _ _ st := (get, st)
  Delete _ st := (delete, st)
  CreateMessage _ _ st := (createMessage, st)

end service

/-! ## The store: gorm over PostgreSQL -/

namespace gorm

open models

/-- The sentinel `gorm.ErrRecordNotFound`. -/
def ErrRecordNotFound : GoError := GoError.errorString "record not found"

/-- The operations of `*gorm.DB` that the repository uses, over a store state `σ`.
Each returns the destination value as the call leaves it and the `Error` of the result.

* `Create`, `CreateMessage`: `db.Create(ptr)` on a chat, on a message;
* `Begin`, `Commit`: opening and committing the transaction of `db.Transaction`;
* `First`: `tx.First(&chat, id)`, given the current value of `chat`;
* `Find`: `tx.Where("chat_id = ?", id).Order("updated_at DESC").Limit(limit).Find(&chat.Messages)`;
* `Delete`: `db.Delete(&chat, id)`. -/
structure DB (σ : Type) where
  Create : Chat → σ → (Chat × Option GoError) × σ
  CreateMessage : Message → σ → (Message × Option GoError) × σ
  Begin : σ → Option GoError
  First : Nat → Chat → σ → Chat × Option GoError
  Find : Nat → Int → σ → List Message × Option GoError
  Commit : σ → Option GoError
  Delete : Nat → σ → Option GoError × σ

/-- The method `db.Transaction(fc, opts)` for a read-only transaction: the error of
`Begin` if it fails, else the error of `fc` (after a rollback), else the error of
`Commit`.  The closure `fc` updates the variable `v` it captures; a rollback does not
undo that. -/
def DB.Transaction {σ α : Type} (db : DB σ) (st : σ) (fc : α → α × Option GoError) (v : α) :
    α × Option GoError :=
  match db.Begin st with
  | some err => (v, some err)
  | none =>
    match fc v with
    | (v1, some err) => (v1, some err)
    | (v1, none) => (v1, db.Commit st)

end gorm

/-! ## Package repository -/

namespace repository

open models

/-- The method `(*Repository).Create`.  Timing and the call of the logger, which only
observe, are left out here and in the other methods. -/
def Create {σ : Type} (db : gorm.DB σ) (chat : Chat) (st : σ) :
    (Option Chat × Option GoError) × σ :=
  match db.Create chat st with
  | ((_, some err), st1) => ((none, some (ErrorfW "failed create chat: " err)), st1)
  | ((chat1, none), st1) => ((some chat1, none), st1)

/-- The method `(*Repository).Get`. -/
def Get {σ : Type} (db : gorm.DB σ) (id : Nat) (limit : Int) (st : σ) :
    (Option Chat × Option GoError) × σ :=
  let chat : Chat := {}
  let res := db.Transaction st (fun (chat : Chat) =>
    match db.First id chat st with
    | (chat1, some err) => (chat1, some (ErrorfW "failed get chat: " err))
    | (chat1, none) =>
      ({ chat1 with Messages := (db.Find id limit st).1 }, (db.Find id limit st).2)) chat
  ((some res.1, res.2), st)

/-- The method `(*Repository).Delete`. -/
def Delete {σ : Type} (db : gorm.DB σ) (id : Nat) (st : σ) : Option GoError × σ :=
  match db.Delete id st with
  | (some err, st1) => (some (ErrorfW "failed delete chat: " err), st1)
  | (none, st1) => (none, st1)

/-- The method `(*Repository).CreateMessage`. -/
def CreateMessage {σ : Type} (db : gorm.DB σ) (_id : Nat) (message : Message) (st : σ) :
    (Option Message × Option GoError) × σ :=
  match db.CreateMessage message st with
  | ((_, some err), st1) => ((none, some (ErrorfW "failed create message: " err)), st1)
  | ((message1, none), st1) => ((some message1, none), st1)

/-- The constructor `NewRepository`: the repository over `db` as a `ChatRepository`. -/
def NewRepository {σ : Type} (db : gorm.DB σ) : service.ChatRepository σ where
  Create := Create db
  Get := Get db
  Delete := Delete db
  CreateMessage := CreateMessage db

end repository

/-! ## An in-memory reading of the PostgreSQL schema -/

namespace postgres

open models

/-- The two tables of the migration, the last values of their `SERIAL` sequences, and
the time gorm stamps on a row it inserts.  A row of `chats` is a `Chat` whose
`Messages` is empty. -/
structure Tables where
  chats : List Chat := []
  messages : List Message := []
  chatsSeq : Nat := 0
  messagesSeq : Nat := 0
  now : Int := 0
  deriving DecidableEq, Repr

/-- Insert into `chats`: a zero `ID` is drawn from the sequence, zero timestamps are
stamped; a duplicate primary key and a title over `VARCHAR(200)` are refused. -/
def insertChat (chat : Chat) (t : Tables) : (Chat × Option GoError) × Tables :=
  let id := if chat.ID = 0 then t.chatsSeq + 1 else chat.ID
  let seq := if chat.ID = 0 then t.chatsSeq + 1 else t.chatsSeq
  let row : Chat :=
    { ID := id, Title := chat.Title,
      CreatedAt := if chat.CreatedAt = 0 then t.now else chat.CreatedAt,
      UpdatedAt := if chat.UpdatedAt = 0 then t.now else chat.UpdatedAt }
  if t.chats.any (fun c => c.ID = id) then
    ((chat, some (GoError.errorString
      "ERROR: duplicate key value violates unique constraint \"chats_pkey\" (SQLSTATE 23505)")),
      { t with chatsSeq := seq })
  else if 200 < chat.Title.length then
    ((chat, some (GoError.errorString
      "ERROR: value too long for type character varying(200) (SQLSTATE 22001)")),
      { t with chatsSeq := seq })
  else
    (({ row with Messages := chat.Messages }, none),
      { t with chats := t.chats ++ [row], chatsSeq := seq })

/-- Insert into `messages`: as `insertChat`, and the foreign key `chat_id` must name a
row of `chats`. -/
def insertMessage (message : Message) (t : Tables) : (Message × Option GoError) × Tables :=
  let id := if message.ID = 0 then t.messagesSeq + 1 else message.ID
  let seq := if message.ID = 0 then t.messagesSeq + 1 else t.messagesSeq
  let row : Message :=
    { ID := id, ChatID := message.ChatID, Text := message.Text,
      CreatedAt := if message.CreatedAt = 0 then t.now else message.CreatedAt,
      UpdatedAt := if message.UpdatedAt = 0 then t.now else message.UpdatedAt }
  if t.messages.any (fun m => m.ID = id) then
    ((message, some (GoError.errorString
      "ERROR: duplicate key value violates unique constraint \"messages_pkey\" (SQLSTATE 23505)")),
      { t with messagesSeq := seq })
  else if ¬ t.chats.any (fun c => c.ID = message.ChatID) then
    ((message, some (GoError.errorString
      "ERROR: insert or update on table \"messages\" violates foreign key constraint \"messages_chat_id_fkey\" (SQLSTATE 23503)")),
      { t with messagesSeq := seq })
  else
    ((row, none), { t with messages := t.messages ++ [row], messagesSeq := seq })

/-- The query `SELECT * FROM chats WHERE id = ? ORDER BY id LIMIT 1` of `First`: the row
is copied into the destination, whose `Messages` it does not touch; without a row the
destination is left as it was and the error is `gorm.ErrRecordNotFound`. -/
def firstChat (id : Nat) (dest : Chat) (t : Tables) : Chat × Option GoError :=
  match t.chats.find? (fun c => c.ID = id) with
  | some row => ({ row with Messages := dest.Messages }, none)
  | none => (dest, some gorm.ErrRecordNotFound)

/-- The query `SELECT * FROM messages WHERE chat_id = ? ORDER BY updated_at DESC LIMIT ?`
of `Find`.  A negative limit is no limit and limit 0 selects no row, as gorm builds
the clause; the service only passes limits from 1 to 100. -/
def findMessages (id : Nat) (limit : Int) (t : Tables) : List Message × Option GoError :=
  let rows := (t.messages.filter (fun m => m.ChatID = id)).insertionSort
    (fun a b => b.UpdatedAt ≤ a.UpdatedAt)
  (if limit < 0 then rows else rows.take limit.toNat, none)

/-- The statement `DELETE FROM chats WHERE id = ?`; `ON DELETE CASCADE` removes the
messages of a deleted chat.  Deleting no row is not an error. -/
def deleteChat (id : Nat) (t : Tables) : Option GoError × Tables :=
  if t.chats.any (fun c => c.ID = id) then
    (none, { t with chats := t.chats.filter (fun c => c.ID ≠ id),
                    messages := t.messages.filter (fun m => m.ChatID ≠ id) })
  else
    (none, t)

/-- The `*gorm.DB` handle over the tables, for a database that answers every request. -/
def db : gorm.DB Tables where
  Create := insertChat
  CreateMessage := insertMessage
  Begin := fun _ => none
  First := firstChat
  Find := findMessages
  Commit := fun _ => none
  Delete := deleteChat

/-- The handle `db` when the request context is cancelled after the chat row has been
read: the query for the messages fails with `context.Canceled` and fills nothing. -/
def dbCanceledAfterFirst : gorm.DB Tables :=
  { db with Find := fun _ _ _ => ([], some (GoError.errorString "context canceled")) }

/-- Tables for the examples: chats 1 and 2; chat 1 holds three messages, updated at
times 1, 3 and 2, and chat 2 holds one. -/
def exampleTables : Tables :=
  { chats := [⟨1, "a", 0, 0, []⟩, ⟨2, "b", 0, 0, []⟩],
    messages := [⟨1, 1, "x", 1, 1⟩, ⟨2, 2, "y", 5, 5⟩, ⟨3, 1, "z", 3, 3⟩, ⟨4, 1, "w", 2, 2⟩],
    chatsSeq := 2, messagesSeq := 4, now := 9 }

end postgres

/-! ## Go runtime: more of package strings, and package strconv -/

/-- Go `strings.Trim(s, cutset)`: the string without its leading and trailing
characters that occur in `cutset`. -/
def Trim (s cutset : String) : String :=
  ⟨(s.data.dropWhile (fun c => cutset.data.contains c)).rdropWhile
    (fun c => cutset.data.contains c)⟩

/-- Go `strings.Split(s, sep)` for a separator of one character: the substrings
between the separators, empty ones included; at least one substring. -/
def Split (s : String) (sep : Char) : List String :=
  (s.data.splitOn sep).map String.mk

namespace strconv

/-- The two errors a `*strconv.NumError` carries. -/
inductive NumError where
  | ErrSyntax
  | ErrRange
  deriving DecidableEq, Repr

/-- The loop of `strconv.ParseUint` in base 10 over the characters left, with the
`uint64` accumulator `n`.  A decimal digit is added after the two overflow checks of
the source; any other byte (a letter is a digit of a larger base) is a syntax error. -/
def parseUintLoop (maxVal : Nat) : List Char → Nat → Nat × Option NumError
  | [], n => (n, none)
  | c :: cs, n =>
    if 48 ≤ c.toNat ∧ c.toNat ≤ 57 then
      if n ≥ (2 ^ 64 - 1) / 10 + 1 then
        (maxVal, some NumError.ErrRange)
      else
        let n10 := n * 10 % 2 ^ 64
        let n1 := (n10 + (c.toNat - 48)) % 2 ^ 64
        if n1 < n10 ∨ n1 > maxVal then
          (maxVal, some NumError.ErrRange)
        else
          parseUintLoop maxVal cs n1
    else
      (0, some NumError.ErrSyntax)

/-- The call `strconv.ParseUint(s, 10, bitSize)` for a bit size up to 64, where 0
stands for the size of `int`, 64. -/
def ParseUint (s : String) (bitSize : Nat) : Nat × Option NumError :=
  if s = "" then
    (0, some NumError.ErrSyntax)
  else
    parseUintLoop (2 ^ (if bitSize = 0 then 64 else bitSize) - 1) s.data 0

/-- The call `strconv.ParseInt(s, 10, 0)`: an optional sign, then `ParseUint`, then the
check against the range of `int64`. -/
def ParseInt (s : String) : Int × Option NumError :=
  if s = "" then
    (0, some NumError.ErrSyntax)
  else
    let neg := s.data.head? = some '-'
    let rest := if s.data.head? = some '+' ∨ neg then s.data.tail else s.data
    match ParseUint ⟨rest⟩ 0 with
    | (_, some NumError.ErrSyntax) => (0, some NumError.ErrSyntax)
    | (un, _) =>
      if ¬ neg ∧ un ≥ 2 ^ 63 then
        (2 ^ 63 - 1, some NumError.ErrRange)
      else if neg ∧ un > 2 ^ 63 then
        (- 2 ^ 63, some NumError.ErrRange)
      else
        (if neg then - (un : Int) else (un : Int), none)

/-- The loop of the fast path of `strconv.Atoi`: every byte must be a decimal digit. -/
def atoiLoop : List Char → Int → Option Int
  | [], n => some n
  | c :: cs, n =>
    if 48 ≤ c.toNat ∧ c.toNat ≤ 57 then atoiLoop cs (n * 10 + ((c.toNat - 48 : Nat) : Int))
    else none

/-- The function `strconv.Atoi` for a 64-bit `int`: the fast path for strings of 1 to
18 bytes, `ParseInt` for the others. -/
def Atoi (s : String) : Int × Option NumError :=
  if 0 < len s ∧ len s < 19 then
    let signed := s.data.head? = some '-' ∨ s.data.head? = some '+'
    let digits := if signed then s.data.tail else s.data
    if signed ∧ digits.length < 1 then
      (0, some NumError.ErrSyntax)
    else
      match atoiLoop digits 0 with
      | none => (0, some NumError.ErrSyntax)
      | some n => (if s.data.head? = some '-' then - n else n, none)
  else
    ParseInt s

end strconv

/-! ## Package models: requests and responses -/

namespace models

/-- The struct `models.CreateChatRequest`. -/
structure CreateChatRequest where
  Title : String := ""
  deriving DecidableEq, Repr

/-- The struct `models.MessageResponse`. -/
structure MessageResponse where
  ID : Nat := 0
  ChatID : Nat := 0
  Text : String := ""
  CreatedAt : Int := 0
  deriving DecidableEq, Repr

/-- The struct `models.ChatResponse`. -/
structure ChatResponse where
  ID : Nat := 0
  Title : String := ""
  CreatedAt : Int := 0
  Messages : List MessageResponse := []
  deriving DecidableEq, Repr

end models

/-! ## Package service: the interface of the service -/

namespace service

open models

/-- The interface `ChatService` of package service, state-passing as `ChatRepository`. -/
structure ChatService (σ : Type) where
  CreateChat : String → σ → (Option Chat × Option GoError) × σ
  GetChat : Nat → Int → σ → (Option Chat × Option GoError) × σ
  DeleteChat : Nat → σ → Option GoError × σ
  SendMessage : Nat → String → σ → (Option Message × Option GoError) × σ

/-- The constructor `NewChatService`: the service over `repo` as a `ChatService`. -/
def NewChatService {σ : Type} (repo : ChatRepository σ) : ChatService σ where
  CreateChat := CreateChat repo
  GetChat := GetChat repo
  DeleteChat := DeleteChat repo
  SendMessage := SendMessage repo

/-- One call of a method of the service, with its arguments. -/
inductive ServiceCall where
  | CreateChat (title : String)
  | GetChat (id : Nat) (limit : Int)
  | DeleteChat (id : Nat)
  | SendMessage (chatID : Nat) (text : String)
  deriving DecidableEq, Repr

/-- A service that behaves as `svc` and appends every call it receives to a log. -/
def recordingService {σ : Type} (svc : ChatService σ) : ChatService (σ × List ServiceCall) where
  CreateChat title st :=
    ((svc.CreateChat title st.1).1,
      ((svc.CreateChat title st.1).2, st.2 ++ [ServiceCall.CreateChat title]))
  GetChat id limit st :=
    ((svc.GetChat id limit st.1).1,
      ((svc.GetChat id limit st.1).2, st.2 ++ [ServiceCall.GetChat id limit]))
  DeleteChat id st :=
    ((svc.DeleteChat id st.1).1, ((svc.DeleteChat id st.1).2, st.2 ++ [ServiceCall.DeleteChat id]))
  SendMessage chatID text st :=
    ((svc.SendMessage chatID text st.1).1,
      ((svc.SendMessage chatID text st.1).2, st.2 ++ [ServiceCall.SendMessage chatID text]))

end service

/-! ## Go runtime: net/http and encoding/json as the handlers use them -/

namespace http

/-- What a handler reads of an `*http.Request`: the method, `URL.Path`, the pairs of
`URL.Query()` in their order, and the body. -/
structure Request where
  Method : String := "GET"
  Path : String := ""
  Query : List (String × String) := []
  Body : String := ""
  deriving DecidableEq, Repr

/-- What a handler has written to its `http.ResponseWriter`: the status code, the
`Content-Type` header and the body. -/
structure Response where
  StatusCode : Nat
  ContentType : String
  Body : String
  deriving DecidableEq, Repr

/-- The function `http.Error(w, msg, code)`: a plain-text response with the message and
a newline as body. -/
def Error (msg : String) (code : Nat) : Response :=
  ⟨code, "text/plain; charset=utf-8", msg ++ "\n"⟩

/-- The method `url.Values.Get(key)`: the first value of the key, `""` without one. -/
def Get (query : List (String × String)) (key : String) : String :=
  match query.find? (fun kv => kv.1 = key) with
  | some kv => kv.2
  | none => ""

end http

namespace json

open models

/-- The functions of `encoding/json` the handlers call, taken as given: decoding the
body of a request into a `CreateChatRequest` (`none` when `Decode` returns an error),
and encoding a `*Chat` (nil included) and a `*ChatResponse`. -/
structure Codec where
  DecodeCreateChatRequest : String → Option CreateChatRequest
  EncodeChat : Option Chat → String
  EncodeChatResponse : ChatResponse → String

/-- A codec for the examples: it decodes the body `\x7b"title":"Valid Title"\x7d` and
no other, and encodes every value as `null`. -/
def exampleCodec : Codec where
  DecodeCreateChatRequest body :=
    if body = "\x7b\"title\":\"Valid Title\"\x7d" then some { Title := "Valid Title" } else none
  EncodeChat _ := "null"
  EncodeChatResponse _ := "null"

end json

/-! ## Package handlers -/

namespace handlers

open models

/-- Modelled from the spec: the interface `ChatService` of package handlers, whose
declaration is not among the sources.  The handlers call the four operations of the
domain service on it and `main` passes it the result of `service.NewChatService`, so it
is the interface of that name of package service. -/
abbrev ChatService (σ : Type) : Type := service.ChatService σ

/-- The function `extractIDFromPath`. -/
def extractIDFromPath (path : String) : Nat × Option GoError :=
  let parts := Split (Trim path "/") '/'
  if h : parts.length < 2 then
    (0, some (Errorf "invalid path format"))
  else
    match strconv.ParseUint (parts.get ⟨1, by omega⟩) 32 with
    | (_, some _) => (0, some (Errorf "invalid ID format"))
    | (id, none) => (id, none)

/-- The number a string of decimal digits denotes, read from the left. -/
def decimalValue (digits : List Char) : Nat :=
  digits.foldl (fun acc c => acc * 10 + (c.toNat - 48)) 0

/-- A segment is an unsigned base-10 integer that fits in 32 bits: it is not empty, all
its characters are the digits `0` to `9`, and the number they denote is below `2 ^ 32`. -/
def IsUint32Decimal (segment : String) : Prop :=
  segment.data ≠ [] ∧ (∀ c ∈ segment.data, 48 ≤ c.toNat ∧ c.toNat ≤ 57) ∧
    decimalValue segment.data < 2 ^ 32

instance (segment : String) : Decidable (IsUint32Decimal segment) := by
  unfold IsUint32Decimal; infer_instance

/-- The method `(*ChatHandler).CreateChat`. -/
def CreateChat {σ : Type} (codec : json.Codec) (svc : ChatService σ) (r : http.Request)
    (st : σ) : http.Response × σ :=
  if r.Method ≠ "POST" then
    (http.Error "Method not allowed" 405, st)
  else
    match codec.DecodeCreateChatRequest r.Body with
    | none => (http.Error "Invalid JSON" 400, st)
    | some req =>
      match svc.CreateChat req.Title st with
      | ((_, some err), st1) => (http.Error err.Error 400, st1)
      | ((chat, none), st1) => (⟨201, "application/json", codec.EncodeChat chat⟩, st1)

/-- The method `(*ChatHandler).GetMessages`.  The response is `none` when the handler
panics, which it does on a nil chat without an error. -/
def GetMessages {σ : Type} (codec : json.Codec) (svc : ChatService σ) (r : http.Request)
    (st : σ) : Option http.Response × σ :=
  if r.Method ≠ "GET" then
    (some (http.Error "Method not allowed" 405), st)
  else
    match extractIDFromPath r.Path with
    | (_, some _) => (some (http.Error "Invalid chat ID" 400), st)
    | (chatID, none) =>
      let limitStr := http.Get r.Query "limit"
      let limit : Int :=
        if limitStr ≠ "" then
          match strconv.Atoi limitStr with
          | (parsedLimit, none) => if parsedLimit > 0 then parsedLimit else 0
          | (_, some _) => 0
        else 0
      match svc.GetChat chatID limit st with
      | ((_, some err), st1) => (some (http.Error err.Error 404), st1)
      | ((none, none), st1) => (none, st1)
      | ((some chat, none), st1) =>
        let messages := chat.Messages.map (fun msg =>
          ({ ID := msg.ID, ChatID := msg.ChatID, Text := msg.Text,
             CreatedAt := msg.CreatedAt } : MessageResponse))
        let chatResponse : ChatResponse :=
          { ID := chat.ID, Title := chat.Title, CreatedAt := chat.CreatedAt,
            Messages := messages }
        (some ⟨200, "application/json", codec.EncodeChatResponse chatResponse⟩, st1)

end handlers

/-! ## Contracts of the service -/

namespace service

open models

/-- C1: `CreateChat` is rejected by validation, with no chat, an error and no call of
the repository, exactly when the trimmed title is empty or longer than 200 bytes; the
error is then the one of the failed check.  In every other case it calls `repo.Create`
once, with a chat that holds the trimmed title and is zero elsewhere, and returns what
the repository returns. -/
theorem CreateChat_contract {σ : Type} (repo : ChatRepository σ) (t : String) (st : σ)
    (log : List RepoCall) :
    ((∃ e, CreateChat (recording repo) t (st, log) = ((none, some e), (st, log))) ↔
        (TrimSpace t = "" ∨ 200 < len (TrimSpace t))) ∧
    (TrimSpace t = "" →
        CreateChat (recording repo) t (st, log) =
          ((none, some (GoError.errorString "chat title cannot be empty")), (st, log))) ∧
    (TrimSpace t ≠ "" → 200 < len (TrimSpace t) →
        CreateChat (recording repo) t (st, log) =
          ((none, some (GoError.errorString "chat title cannot exceed 200 characters")),
            (st, log))) ∧
    (¬ (TrimSpace t = "" ∨ 200 < len (TrimSpace t)) →
        CreateChat (recording repo) t (st, log) =
          ((repo.Create ⟨0, TrimSpace t, 0, 0, []⟩ st).1,
            ((repo.Create ⟨0, TrimSpace t, 0, 0, []⟩ st).2,
              log ++ [RepoCall.Create ⟨0, TrimSpace t, 0, 0, []⟩]))) := by
  by_cases h1 : TrimSpace t = ""
  · simp [CreateChat, h1, Errorf]
  · by_cases h2 : 200 < len (TrimSpace t)
    · simp [CreateChat, h1, h2, Errorf]
    · simp [CreateChat, h1, h2, recording]

/-- C1, at a concrete input: the title and the mock of `TestCreateChat_Success`. -/
theorem CreateChat_contract_witness :
    ¬ (TrimSpace "  Test Chat  " = "" ∨ 200 < len (TrimSpace "  Test Chat  ")) ∧
    CreateChat (recording (MockChatRepository (some ⟨1, "Test Chat", 0, 0, []⟩, none)
        (none, none) none (none, none))) "  Test Chat  " ((), []) =
      ((some ⟨1, "Test Chat", 0, 0, []⟩, none),
        ((), [RepoCall.Create ⟨0, "Test Chat", 0, 0, []⟩])) :=
  ⟨by decide,
    ((CreateChat_contract (MockChatRepository (some ⟨1, "Test Chat", 0, 0, []⟩, none)
      (none, none) none (none, none)) "  Test Chat  " () []).2.2.2 (by decide)).trans
      (by decide)⟩

/-- C2: for a non-zero chat ID, `SendMessage` is rejected by validation, with no
message, an error and no call of the repository, exactly when the trimmed text is empty
or longer than 5000 bytes.  In every other case it calls `repo.CreateMessage` once, with
the chat ID and a message that holds the chat ID and the trimmed text, and returns what
the repository returns. -/
theorem SendMessage_contract {σ : Type} (repo : ChatRepository σ) (chatID : Nat)
    (s : String) (st : σ) (log : List RepoCall) (hid : chatID ≠ 0) :
    ((∃ e, SendMessage (recording repo) chatID s (st, log) = ((none, some e), (st, log))) ↔
        (TrimSpace s = "" ∨ 5000 < len (TrimSpace s))) ∧
    (TrimSpace s = "" →
        SendMessage (recording repo) chatID s (st, log) =
          ((none, some (GoError.errorString "message text cannot be empty")), (st, log))) ∧
    (TrimSpace s ≠ "" → 5000 < len (TrimSpace s) →
        SendMessage (recording repo) chatID s (st, log) =
          ((none, some (GoError.errorString "message text cannot exceed 5000 characters")),
            (st, log))) ∧
    (¬ (TrimSpace s = "" ∨ 5000 < len (TrimSpace s)) →
        SendMessage (recording repo) chatID s (st, log) =
          ((repo.CreateMessage chatID ⟨0, chatID, TrimSpace s, 0, 0⟩ st).1,
            ((repo.CreateMessage chatID ⟨0, chatID, TrimSpace s, 0, 0⟩ st).2,
              log ++ [RepoCall.CreateMessage chatID ⟨0, chatID, TrimSpace s, 0, 0⟩]))) := by
  by_cases h1 : TrimSpace s = ""
  · simp [SendMessage, hid, h1, Errorf]
  · by_cases h2 : 5000 < len (TrimSpace s)
    · simp [SendMessage, hid, h1, h2, Errorf]
    · simp [SendMessage, hid, h1, h2, recording]

/-- C2, at a concrete input: chat 1 and the text `"  hi  "` over the repository of the
in-memory store holding chat 1. -/
theorem SendMessage_contract_witness :
    (1 : Nat) ≠ 0 ∧
    SendMessage (recording (repository.NewRepository postgres.db)) 1 "  hi  "
        (({ chats := [⟨1, "general", 5, 5, []⟩], chatsSeq := 1, now := 9 } : postgres.Tables), []) =
      ((some ⟨1, 1, "hi", 9, 9⟩, none),
        (({ chats := [⟨1, "general", 5, 5, []⟩], messages := [⟨1, 1, "hi", 9, 9⟩],
            chatsSeq := 1, messagesSeq := 1, now := 9 } : postgres.Tables),
          [RepoCall.CreateMessage 1 ⟨0, 1, "hi", 0, 0⟩])) :=
  ⟨by decide,
    ((SendMessage_contract (repository.NewRepository postgres.db) 1 "  hi  "
      ({ chats := [⟨1, "general", 5, 5, []⟩], chatsSeq := 1, now := 9 } : postgres.Tables) []
      (by decide)).2.2.2 (by decide)).trans (by decide)⟩

/-- What `GetChat` returns once validation has passed, in terms of the answer of
`repo.Get` to the normalised limit: the chat is dropped and the error wrapped when there
is an error, and the state is the one the repository leaves. -/
theorem GetChat_of_valid {σ : Type} (repo : ChatRepository σ) (id : Nat) (limit : Int)
    (st : σ) (hid : id ≠ 0) (h0 : 0 ≤ limit) (h100 : limit ≤ 100) :
    GetChat repo id limit st =
      ((match (repo.Get id (if limit = 0 then 20 else limit) st).1.2 with
          | some _ => none
          | none => (repo.Get id (if limit = 0 then 20 else limit) st).1.1,
        (repo.Get id (if limit = 0 then 20 else limit) st).1.2.map
          (ErrorfW "failed to get chat: ")),
        (repo.Get id (if limit = 0 then 20 else limit) st).2) := by
  have hn : ¬ limit < 0 := by omega
  have hb : ¬ limit > 100 := by omega
  by_cases hz : limit = 0
  · simp only [GetChat, hid, hz, if_false, if_true]
    split <;> rename_i h <;> simp [h]
  · simp only [GetChat, hid, hz, hn, hb, if_false]
    split <;> rename_i h <;> simp [h]

/-- C3: for a non-zero id, `GetChat` hands limit 20 to `repo.Get` when the limit
is 0 and the limit itself when it is between 1 and 100; a negative limit and a limit
over 100 are refused with errors that contain "limit cannot be negative" and "limit
cannot exceed 100", without a call.  Every call the repository receives is a `Get` for
that id with a limit between 1 and 100. -/
theorem GetChat_limit {σ : Type} (repo : ChatRepository σ) (id : Nat) (limit : Int)
    (st : σ) (log : List RepoCall) (hid : id ≠ 0) :
    (limit = 0 →
        (GetChat (recording repo) id limit (st, log)).2 =
          ((repo.Get id 20 st).2, log ++ [RepoCall.Get id 20])) ∧
    (1 ≤ limit → limit ≤ 100 →
        (GetChat (recording repo) id limit (st, log)).2 =
          ((repo.Get id limit st).2, log ++ [RepoCall.Get id limit])) ∧
    (limit < 0 →
        ∃ e, GetChat (recording repo) id limit (st, log) = ((none, some e), (st, log)) ∧
          Contains e.Error "limit cannot be negative") ∧
    (100 < limit →
        ∃ e, GetChat (recording repo) id limit (st, log) = ((none, some e), (st, log)) ∧
          Contains e.Error "limit cannot exceed 100") ∧
    (∀ c ∈ (GetChat (recording repo) id limit (st, [])).2.2,
        ∃ l : Int, c = RepoCall.Get id l ∧ 1 ≤ l ∧ l ≤ 100) := by
  have hneg : Contains (Errorf "limit cannot be negative").Error "limit cannot be negative" :=
    List.infix_refl _
  have hbig : Contains (Errorf "limit cannot exceed 100 messages").Error
      "limit cannot exceed 100" := ⟨[], " messages".data, rfl⟩
  refine ⟨?_, ?_, ?_, ?_, ?_⟩
  · intro h0
    subst h0
    rw [GetChat_of_valid _ _ _ _ hid (by decide) (by decide)]
    simp [recording]
  · intro h1 h100
    have hz : limit ≠ 0 := by omega
    rw [GetChat_of_valid _ _ _ _ hid (by omega) h100]
    simp [recording, hz]
  · intro hn
    have hz : limit ≠ 0 := by omega
    exact ⟨_, by simp only [GetChat, hid, hz, hn, if_false, if_true], hneg⟩
  · intro hb
    have hz : limit ≠ 0 := by omega
    have hn : ¬ limit < 0 := by omega
    have hb2 : limit > 100 := hb
    exact ⟨_, by simp only [GetChat, hid, hz, hn, hb2, if_false, if_true], hbig⟩
  · intro c hc
    by_cases hn : limit < 0
    · have hz : limit ≠ 0 := by omega
      simp [GetChat, hid, hz, hn] at hc
    · by_cases hb : limit > 100
      · have hz : limit ≠ 0 := by omega
        simp [GetChat, hid, hz, hn, hb] at hc
      · rw [GetChat_of_valid _ _ _ _ hid (by omega) (by omega)] at hc
        simp only [recording, List.nil_append, List.mem_singleton] at hc
        refine ⟨if limit = 0 then 20 else limit, hc, ?_, ?_⟩ <;> split_ifs <;> omega

/-- C3, at a concrete input: `GetChat(1, 0)` over the mock of `TestGetChat_DefaultLimit`
asks the repository for 20 messages, once. -/
theorem GetChat_limit_witness :
    (1 : Nat) ≠ 0 ∧
    (GetChat (recording (MockChatRepository (none, none) (some ⟨1, "Test Chat", 0, 0, []⟩, none)
        none (none, none))) 1 0 ((), [])).2 = ((), [RepoCall.Get 1 20]) :=
  ⟨by decide,
    (GetChat_limit (MockChatRepository (none, none) (some ⟨1, "Test Chat", 0, 0, []⟩, none)
      none (none, none)) 1 0 () [] (by decide)).1 rfl⟩

/-- C4: an operation that fails its own validation (title or text empty or too long
after trimming, id 0, limit negative or over 100) returns an error and leaves the state
of the repository and the log of its calls as they were: it calls no method of the
repository. -/
theorem validation_failure_calls_nothing {σ : Type} (repo : ChatRepository σ) (st : σ)
    (log : List RepoCall) :
    (∀ title : String, TrimSpace title = "" ∨ 200 < len (TrimSpace title) →
        (CreateChat (recording repo) title (st, log)).2 = (st, log) ∧
        (CreateChat (recording repo) title (st, log)).1.2 ≠ none) ∧
    (∀ (id : Nat) (limit : Int), id = 0 ∨ limit < 0 ∨ 100 < limit →
        (GetChat (recording repo) id limit (st, log)).2 = (st, log) ∧
        (GetChat (recording repo) id limit (st, log)).1.2 ≠ none) ∧
    (∀ id : Nat, id = 0 →
        (DeleteChat (recording repo) id (st, log)).2 = (st, log) ∧
        (DeleteChat (recording repo) id (st, log)).1 ≠ none) ∧
    (∀ (chatID : Nat) (text : String),
        chatID = 0 ∨ TrimSpace text = "" ∨ 5000 < len (TrimSpace text) →
        (SendMessage (recording repo) chatID text (st, log)).2 = (st, log) ∧
        (SendMessage (recording repo) chatID text (st, log)).1.2 ≠ none) := by
  refine ⟨?_, ?_, ?_, ?_⟩
  · intro title h
    by_cases h1 : TrimSpace title = ""
    · simp [CreateChat, h1]
    · have h2 : 200 < len (TrimSpace title) := h.resolve_left h1
      simp [CreateChat, h1, h2]
  · intro id limit h
    by_cases hid : id = 0
    · simp [GetChat, hid]
    · by_cases hn : limit < 0
      · have hz : limit ≠ 0 := by omega
        simp [GetChat, hid, hz, hn]
      · have hb : limit > 100 := (h.resolve_left hid).resolve_left hn
        have hz : limit ≠ 0 := by omega
        simp [GetChat, hid, hz, hn, hb]
  · intro id h
    simp [DeleteChat, h]
  · intro chatID text h
    by_cases hid : chatID = 0
    · simp [SendMessage, hid]
    · by_cases h1 : TrimSpace text = ""
      · simp [SendMessage, hid, h1]
      · have h2 : 5000 < len (TrimSpace text) := (h.resolve_left hid).resolve_left h1
        simp [SendMessage, hid, h1, h2]

/-- C4, at concrete inputs: the rejected calls of the unit tests, over a mock whose
methods would all succeed. -/
theorem validation_failure_calls_nothing_witness :
    (CreateChat (recording (MockChatRepository (some {}, none) (some {}, none) none
        (some {}, none))) "   " ((), [])).2 = ((), []) ∧
    (GetChat (recording (MockChatRepository (some {}, none) (some {}, none) none
        (some {}, none))) 1 101 ((), [])).2 = ((), []) ∧
    (DeleteChat (recording (MockChatRepository (some {}, none) (some {}, none) none
        (some {}, none))) 0 ((), [])).2 = ((), []) ∧
    (SendMessage (recording (MockChatRepository (some {}, none) (some {}, none) none
        (some {}, none))) 1 "" ((), [])).2 = ((), []) :=
  ⟨((validation_failure_calls_nothing (MockChatRepository (some {}, none) (some {}, none) none
      (some {}, none)) () []).1 "   " (by decide)).1,
    ((validation_failure_calls_nothing (MockChatRepository (some {}, none) (some {}, none) none
      (some {}, none)) () []).2.1 1 101 (by decide)).1,
    ((validation_failure_calls_nothing (MockChatRepository (some {}, none) (some {}, none) none
      (some {}, none)) () []).2.2.1 0 rfl).1,
    ((validation_failure_calls_nothing (MockChatRepository (some {}, none) (some {}, none) none
      (some {}, none)) () []).2.2.2 1 "" (by decide)).1⟩

/-- C5: with chat ID 0, `SendMessage` fails with "chat ID must be greater than 0"
whatever the text, and calls no method of the repository. -/
theorem SendMessage_zero_chatID {σ : Type} (repo : ChatRepository σ) (s : String) (st : σ)
    (log : List RepoCall) :
    SendMessage (recording repo) 0 s (st, log) =
        ((none, some (GoError.errorString "chat ID must be greater than 0")), (st, log)) ∧
    (GoError.errorString "chat ID must be greater than 0").Error =
        "chat ID must be greater than 0" := by
  simp [SendMessage, Errorf, GoError.Error]

/-- C6: `DeleteChat` fails with "chat ID must be greater than 0", without a call of the
repository, exactly when the id is 0; for any other id it calls `repo.Delete` once with
that id and returns the result of the repository as it is. -/
theorem DeleteChat_contract {σ : Type} (repo : ChatRepository σ) (id : Nat) (st : σ)
    (log : List RepoCall) :
    (DeleteChat (recording repo) id (st, log) =
        (some (GoError.errorString "chat ID must be greater than 0"), (st, log)) ↔ id = 0) ∧
    (id ≠ 0 →
        DeleteChat (recording repo) id (st, log) =
          ((repo.Delete id st).1, ((repo.Delete id st).2, log ++ [RepoCall.Delete id]))) := by
  by_cases hid : id = 0
  · simp [DeleteChat, hid, Errorf]
  · simp [DeleteChat, hid, recording]

/-- C6, at a concrete input: the mock of `TestDeleteChat_RepositoryError`. -/
theorem DeleteChat_contract_witness :
    (1 : Nat) ≠ 0 ∧
    DeleteChat (recording (MockChatRepository (none, none) (none, none)
        (some (GoError.errorString "delete failed")) (none, none))) 1 ((), []) =
      (some (GoError.errorString "delete failed"), ((), [RepoCall.Delete 1])) :=
  ⟨by decide,
    (DeleteChat_contract (MockChatRepository (none, none) (none, none)
      (some (GoError.errorString "delete failed")) (none, none)) 1 () []).2 (by decide)⟩

/-- C7: for a non-zero id and a limit from 0 to 100, when `repo.Get` answers the
normalised limit with an error `e`, `GetChat` returns no chat and an error whose message
is "failed to get chat: " followed by the message of `e`, which unwraps to `e` and has
`e` in its unwrap chain; when `repo.Get` answers without an error, `GetChat` returns
the chat of the repository and no error. -/
theorem GetChat_repository_result {σ : Type} (repo : ChatRepository σ) (id : Nat)
    (limit : Int) (st : σ) (hid : id ≠ 0) (h0 : 0 ≤ limit) (h100 : limit ≤ 100) :
    (∀ (c : Option Chat) (e : GoError) (st1 : σ),
        repo.Get id (if limit = 0 then 20 else limit) st = ((c, some e), st1) →
        ∃ err, GetChat repo id limit st = ((none, some err), st1) ∧
          err.Error = "failed to get chat: " ++ e.Error ∧
          err.Unwrap = some e ∧ errorsIs err e) ∧
    (∀ (c : Option Chat) (st1 : σ),
        repo.Get id (if limit = 0 then 20 else limit) st = ((c, none), st1) →
        GetChat repo id limit st = ((c, none), st1)) := by
  constructor
  · intro c e st1 h
    refine ⟨ErrorfW "failed to get chat: " e, ?_, rfl, rfl, ?_⟩
    · rw [GetChat_of_valid repo id limit st hid h0 h100, h]
      rfl
    · cases e <;> simp [errorsIs, ErrorfW, GoError.chain]
  · intro c st1 h
    rw [GetChat_of_valid repo id limit st hid h0 h100, h]
    rfl

/-- C7, at a concrete input: the mock of `TestGetChat_RepositoryError`, whose `Get`
fails with "chat not found". -/
theorem GetChat_repository_result_witness :
    (1 : Nat) ≠ 0 ∧ (0 : Int) ≤ 20 ∧ (20 : Int) ≤ 100 ∧
    ∃ err, GetChat (MockChatRepository (none, none)
          (none, some (GoError.errorString "chat not found")) none (none, none)) 1 20 () =
        ((none, some err), ()) ∧
      err.Error = "failed to get chat: " ++ (GoError.errorString "chat not found").Error ∧
      err.Unwrap = some (GoError.errorString "chat not found") ∧
      errorsIs err (GoError.errorString "chat not found") :=
  ⟨by decide, by decide, by decide,
    (GetChat_repository_result (MockChatRepository (none, none)
      (none, some (GoError.errorString "chat not found")) none (none, none)) 1 20 ()
      (by decide) (by decide) (by decide)).1 none (GoError.errorString "chat not found") () rfl⟩

/-- C8: for a valid title, and for a non-zero chat ID with a valid text, when the call
of the repository fails with an error `e`, `CreateChat` and `SendMessage` return `e`
itself, with the entity and the state the repository returned. -/
theorem repository_error_unchanged {σ : Type} (repo : ChatRepository σ) (t : String)
    (chatID : Nat) (s : String) (st : σ)
    (ht : TrimSpace t ≠ "" ∧ len (TrimSpace t) ≤ 200)
    (hid : chatID ≠ 0) (hs : TrimSpace s ≠ "" ∧ len (TrimSpace s) ≤ 5000) :
    (∀ (c : Option Chat) (e : GoError) (st1 : σ),
        repo.Create ⟨0, TrimSpace t, 0, 0, []⟩ st = ((c, some e), st1) →
        CreateChat repo t st = ((c, some e), st1)) ∧
    (∀ (m : Option Message) (e : GoError) (st1 : σ),
        repo.CreateMessage chatID ⟨0, chatID, TrimSpace s, 0, 0⟩ st = ((m, some e), st1) →
        SendMessage repo chatID s st = ((m, some e), st1)) := by
  have ht2 : ¬ 200 < len (TrimSpace t) := by omega
  have hs2 : ¬ 5000 < len (TrimSpace s) := by omega
  constructor
  · intro c e st1 h
    simp only [CreateChat, ht.1, ht2, gt_iff_lt, if_false]
    exact h
  · intro m e st1 h
    simp only [SendMessage, hid, hs.1, hs2, gt_iff_lt, if_false]
    exact h

/-- C8, at a concrete input: the mocks of `TestCreateChat_RepositoryError` and
`TestSendMessage_RepositoryError`. -/
theorem repository_error_unchanged_witness :
    (TrimSpace "Valid Title" ≠ "" ∧ len (TrimSpace "Valid Title") ≤ 200) ∧ (1 : Nat) ≠ 0 ∧
    (TrimSpace "Valid message" ≠ "" ∧ len (TrimSpace "Valid message") ≤ 5000) ∧
    CreateChat (MockChatRepository (none, some (GoError.errorString "database error"))
        (none, none) none (none, some (GoError.errorString "create message failed")))
        "Valid Title" () = ((none, some (GoError.errorString "database error")), ()) ∧
    SendMessage (MockChatRepository (none, some (GoError.errorString "database error"))
        (none, none) none (none, some (GoError.errorString "create message failed")))
        1 "Valid message" () =
      ((none, some (GoError.errorString "create message failed")), ()) :=
  ⟨by decide, by decide, by decide,
    (repository_error_unchanged (MockChatRepository
      (none, some (GoError.errorString "database error")) (none, none) none
      (none, some (GoError.errorString "create message failed")))
      "Valid Title" 1 "Valid message" () (by decide) (by decide) (by decide)).1 none _ () rfl,
    (repository_error_unchanged (MockChatRepository
      (none, some (GoError.errorString "database error")) (none, none) none
      (none, some (GoError.errorString "create message failed")))
      "Valid Title" 1 "Valid message" () (by decide) (by decide) (by decide)).2 none _ () rfl⟩

end service

/-! ## The service over the repository and the store -/

namespace repository

open models

/-- C9: for a non-zero id without a row in `chats` and a limit from 0 to 100, `GetChat`
of the service over `Repository.Get` returns no chat (hence no messages), leaves the
tables as they were, and fails with an error that carries both wrappers and still has
`gorm.ErrRecordNotFound` in its unwrap chain. -/
theorem GetChat_missing_chat (t : postgres.Tables) (id : Nat) (limit : Int)
    (hid : id ≠ 0) (hrow : ∀ c ∈ t.chats, c.ID ≠ id) (h0 : 0 ≤ limit) (h100 : limit ≤ 100) :
    ∃ err, service.GetChat (NewRepository postgres.db) id limit t = ((none, some err), t) ∧
      errorsIs err gorm.ErrRecordNotFound ∧
      err.Error = "failed to get chat: failed get chat: record not found" ∧
      err.Unwrap = some (ErrorfW "failed get chat: " gorm.ErrRecordNotFound) := by
  have hfind : ∀ dest : Chat,
      postgres.firstChat id dest t = (dest, some gorm.ErrRecordNotFound) := by
    intro dest
    have : t.chats.find? (fun c => decide (c.ID = id)) = none := by
      rw [List.find?_eq_none]
      intro c hc
      simpa using hrow c hc
    simp [postgres.firstChat, this]
  have hget : ∀ l : Int, (NewRepository postgres.db).Get id l t =
      ((some {}, some (ErrorfW "failed get chat: " gorm.ErrRecordNotFound)), t) := by
    intro l
    simp [NewRepository, Get, gorm.DB.Transaction, postgres.db, hfind]
  refine ⟨ErrorfW "failed to get chat: " (ErrorfW "failed get chat: " gorm.ErrRecordNotFound),
    ?_, by decide, by decide, rfl⟩
  rw [service.GetChat_of_valid _ id limit t hid h0 h100, hget]
  rfl

/-- C9, at a concrete input: chat 2 is asked of tables that hold chat 1 only. -/
theorem GetChat_missing_chat_witness :
    (2 : Nat) ≠ 0 ∧
    (∀ c ∈ ({ chats := [⟨1, "general", 5, 5, []⟩], messages := [⟨1, 1, "hi", 6, 6⟩],
              chatsSeq := 1, messagesSeq := 1, now := 9 } : postgres.Tables).chats, c.ID ≠ 2) ∧
    (0 : Int) ≤ 20 ∧ (20 : Int) ≤ 100 ∧
    ∃ err, service.GetChat (NewRepository postgres.db) 2 20
          ({ chats := [⟨1, "general", 5, 5, []⟩], messages := [⟨1, 1, "hi", 6, 6⟩],
             chatsSeq := 1, messagesSeq := 1, now := 9 } : postgres.Tables) =
        ((none, some err),
          ({ chats := [⟨1, "general", 5, 5, []⟩], messages := [⟨1, 1, "hi", 6, 6⟩],
             chatsSeq := 1, messagesSeq := 1, now := 9 } : postgres.Tables)) ∧
      errorsIs err gorm.ErrRecordNotFound ∧
      err.Error = "failed to get chat: failed get chat: record not found" ∧
      err.Unwrap = some (ErrorfW "failed get chat: " gorm.ErrRecordNotFound) :=
  ⟨by decide, by decide, by decide, by decide,
    GetChat_missing_chat _ 2 20 (by decide) (by decide) (by decide) (by decide)⟩

/-- C10: when the transaction opens, `First` reads the chat row and the query for the
messages fails with `e`, `Repository.Get` returns `e` together with a chat: the row that
was read, holding as `Messages` whatever the failed query left there. -/
theorem Get_returns_chat_on_find_error {σ : Type} (db : gorm.DB σ) (id : Nat) (limit : Int)
    (st : σ) (row : Chat) (e : GoError) (hbegin : db.Begin st = none)
    (hfirst : db.First id {} st = (row, none)) (hfind : (db.Find id limit st).2 = some e) :
    Get db id limit st =
      ((some { row with Messages := (db.Find id limit st).1 }, some e), st) := by
  simp [Get, gorm.DB.Transaction, hbegin, hfirst, hfind]

/-- C10, at a concrete input: chat 1 exists with one message and the context is
cancelled between the two queries; `Repository.Get` returns the error together with
chat 1 without its message. -/
theorem Get_returns_chat_on_find_error_witness :
    postgres.dbCanceledAfterFirst.Begin
        ({ chats := [⟨1, "general", 5, 5, []⟩], messages := [⟨1, 1, "hi", 6, 6⟩],
           chatsSeq := 1, messagesSeq := 1, now := 9 } : postgres.Tables) = none ∧
    postgres.dbCanceledAfterFirst.First 1 {}
        ({ chats := [⟨1, "general", 5, 5, []⟩], messages := [⟨1, 1, "hi", 6, 6⟩],
           chatsSeq := 1, messagesSeq := 1, now := 9 } : postgres.Tables) =
      (⟨1, "general", 5, 5, []⟩, none) ∧
    (postgres.dbCanceledAfterFirst.Find 1 20
        ({ chats := [⟨1, "general", 5, 5, []⟩], messages := [⟨1, 1, "hi", 6, 6⟩],
           chatsSeq := 1, messagesSeq := 1, now := 9 } : postgres.Tables)).2 =
      some (GoError.errorString "context canceled") ∧
    Get postgres.dbCanceledAfterFirst 1 20
        ({ chats := [⟨1, "general", 5, 5, []⟩], messages := [⟨1, 1, "hi", 6, 6⟩],
           chatsSeq := 1, messagesSeq := 1, now := 9 } : postgres.Tables) =
      ((some ⟨1, "general", 5, 5, []⟩, some (GoError.errorString "context canceled")),
        ({ chats := [⟨1, "general", 5, 5, []⟩], messages := [⟨1, 1, "hi", 6, 6⟩],
           chatsSeq := 1, messagesSeq := 1, now := 9 } : postgres.Tables)) :=
  ⟨rfl, by decide, rfl,
    Get_returns_chat_on_find_error postgres.dbCanceledAfterFirst 1 20 _
      ⟨1, "general", 5, 5, []⟩ (GoError.errorString "context canceled") rfl (by decide) rfl⟩

end repository

/-! ## Reading and deleting a chat in the store -/

namespace postgres

open models

/-- Without a row for `id`, `First` reports `gorm.ErrRecordNotFound` and leaves the
destination as it was. -/
theorem firstChat_of_missing (t : Tables) (id : Nat) (dest : Chat)
    (hrow : ∀ c ∈ t.chats, c.ID ≠ id) :
    firstChat id dest t = (dest, some gorm.ErrRecordNotFound) := by
  have hnone : t.chats.find? (fun c => decide (c.ID = id)) = none := by
    rw [List.find?_eq_none]
    intro c hc
    simpa using hrow c hc
  simp [firstChat, hnone]

/-- With a row for `id`, `First` copies the first such row into the destination. -/
theorem firstChat_of_present (t : Tables) (id : Nat) (dest : Chat)
    (hrow : ∃ c ∈ t.chats, c.ID = id) :
    ∃ row ∈ t.chats, row.ID = id ∧
      firstChat id dest t = ({ row with Messages := dest.Messages }, none) := by
  cases hf : t.chats.find? (fun c => decide (c.ID = id)) with
  | none =>
    rw [List.find?_eq_none] at hf
    obtain ⟨c, hc, hcid⟩ := hrow
    exact absurd hcid (by simpa using hf c hc)
  | some row =>
    refine ⟨row, List.mem_of_find?_eq_some hf, ?_, ?_⟩
    · simpa using List.find?_some hf
    · simp [firstChat, hf]

/-- The rows `Find` returns for a limit of at least 1: messages of the chat, newest
update first, at most `limit` of them, and no message of the chat left out is newer
than one returned. -/
theorem findMessages_spec (t : Tables) (id : Nat) (limit : Int) (h1 : 1 ≤ limit) :
    (findMessages id limit t).2 = none ∧
    (∀ m ∈ (findMessages id limit t).1, m.ChatID = id ∧ m ∈ t.messages) ∧
    (findMessages id limit t).1.Pairwise (fun a b => b.UpdatedAt ≤ a.UpdatedAt) ∧
    ((findMessages id limit t).1.length : Int) ≤ limit ∧
    (∀ m ∈ t.messages, m.ChatID = id → m ∉ (findMessages id limit t).1 →
      ∀ r ∈ (findMessages id limit t).1, m.UpdatedAt ≤ r.UpdatedAt) := by
  have hneg : ¬ limit < 0 := by omega
  haveI : IsTotal Message (fun a b => b.UpdatedAt ≤ a.UpdatedAt) :=
    ⟨fun a b => le_total b.UpdatedAt a.UpdatedAt⟩
  haveI : IsTrans Message (fun a b => b.UpdatedAt ≤ a.UpdatedAt) :=
    ⟨fun _ _ _ hab hbc => le_trans hbc hab⟩
  have hsorted := List.sorted_insertionSort (fun a b : Message => b.UpdatedAt ≤ a.UpdatedAt)
    (t.messages.filter (fun m => m.ChatID = id))
  simp only [findMessages, hneg, if_false]
  refine ⟨trivial, ?_, ?_, ?_, ?_⟩
  · intro m hm
    have hm2 := (List.mem_insertionSort _).1 (List.mem_of_mem_take hm)
    simp only [List.mem_filter, decide_eq_true_eq] at hm2
    exact ⟨hm2.2, hm2.1⟩
  · exact hsorted.sublist (List.take_sublist _ _)
  · have hlen := List.length_take_le limit.toNat
      ((t.messages.filter (fun m => m.ChatID = id)).insertionSort
        (fun a b => b.UpdatedAt ≤ a.UpdatedAt))
    have := Int.toNat_of_nonneg (show 0 ≤ limit by omega)
    omega
  · intro m hm hid hnot r hr
    have hmem : m ∈ (t.messages.filter (fun m => m.ChatID = id)).insertionSort
        (fun a b => b.UpdatedAt ≤ a.UpdatedAt) := by
      rw [List.mem_insertionSort]
      simp [List.mem_filter, hm, hid]
    rw [← List.take_append_drop limit.toNat
      ((t.messages.filter (fun m => m.ChatID = id)).insertionSort
        (fun a b => b.UpdatedAt ≤ a.UpdatedAt)), List.mem_append] at hmem
    exact hsorted.rel_of_mem_take_of_mem_drop hr (hmem.resolve_left hnot)

end postgres

namespace repository

open models

/-- What `GetChat` of the service over the store returns for a chat that has a row: the
first row with that id, holding the messages `Find` selects for the normalised limit. -/
theorem GetChat_db_of_present (t : postgres.Tables) (id : Nat) (limit : Int)
    (hid : id ≠ 0) (hrow : ∃ c ∈ t.chats, c.ID = id) (h0 : 0 ≤ limit) (h100 : limit ≤ 100) :
    ∃ row ∈ t.chats, row.ID = id ∧
      service.GetChat (NewRepository postgres.db) id limit t =
        ((some { row with Messages :=
            (postgres.findMessages id (if limit = 0 then 20 else limit) t).1 }, none), t) := by
  obtain ⟨row, hmem, hrid, hfirst⟩ := postgres.firstChat_of_present t id {} hrow
  refine ⟨row, hmem, hrid, ?_⟩
  have h1 : (1 : Int) ≤ (if limit = 0 then 20 else limit) := by split_ifs <;> omega
  have hfind := (postgres.findMessages_spec t id _ h1).1
  have hget : (NewRepository postgres.db).Get id (if limit = 0 then 20 else limit) t =
      ((some { row with Messages :=
          (postgres.findMessages id (if limit = 0 then 20 else limit) t).1 }, none), t) := by
    simp [NewRepository, Get, gorm.DB.Transaction, postgres.db, hfirst, hfind]
  rw [service.GetChat_of_valid _ id limit t hid h0 h100, hget]
  rfl

/-- What `GetChat` of the service over the store returns for an id without a row: no
chat, and the record-not-found error of the store under both wrappers. -/
theorem GetChat_db_of_missing (t : postgres.Tables) (id : Nat) (limit : Int)
    (hid : id ≠ 0) (hrow : ∀ c ∈ t.chats, c.ID ≠ id) (h0 : 0 ≤ limit) (h100 : limit ≤ 100) :
    service.GetChat (NewRepository postgres.db) id limit t =
      ((none, some (ErrorfW "failed to get chat: "
        (ErrorfW "failed get chat: " gorm.ErrRecordNotFound))), t) := by
  have hget : ∀ l : Int, (NewRepository postgres.db).Get id l t =
      ((some {}, some (ErrorfW "failed get chat: " gorm.ErrRecordNotFound)), t) := by
    intro l
    simp [NewRepository, Get, gorm.DB.Transaction, postgres.db,
      postgres.firstChat_of_missing t id _ hrow]
  rw [service.GetChat_of_valid _ id limit t hid h0 h100, hget]
  rfl

/-- C11: for a chat that exists and a limit from 0 to 100, `GetChat` succeeds with
that chat, and its messages all belong to the chat, are in non-increasing order of
`UpdatedAt`, are at most the normalised limit in number (20 for limit 0), and no
message of the chat that is left out was updated later than one that is returned. -/
theorem GetChat_messages (t : postgres.Tables) (id : Nat) (limit : Int)
    (hid : id ≠ 0) (hrow : ∃ c ∈ t.chats, c.ID = id) (h0 : 0 ≤ limit) (h100 : limit ≤ 100) :
    ∃ chat, service.GetChat (NewRepository postgres.db) id limit t = ((some chat, none), t) ∧
      chat.ID = id ∧
      (∀ m ∈ chat.Messages, m.ChatID = id ∧ m ∈ t.messages) ∧
      chat.Messages.Pairwise (fun a b => b.UpdatedAt ≤ a.UpdatedAt) ∧
      (chat.Messages.length : Int) ≤ (if limit = 0 then 20 else limit) ∧
      (∀ m ∈ t.messages, m.ChatID = id → m ∉ chat.Messages →
        ∀ r ∈ chat.Messages, m.UpdatedAt ≤ r.UpdatedAt) := by
  obtain ⟨row, _, hrid, hget⟩ := GetChat_db_of_present t id limit hid hrow h0 h100
  have h1 : (1 : Int) ≤ (if limit = 0 then 20 else limit) := by split_ifs <;> omega
  obtain ⟨_, hof, hsorted, hlen, hnewest⟩ := postgres.findMessages_spec t id _ h1
  exact ⟨_, hget, hrid, hof, hsorted, hlen, hnewest⟩

/-- C11, at a concrete input: the two newest messages of chat 1 of the example tables,
which are the messages 3 and 4, in that order. -/
theorem GetChat_messages_witness :
    (1 : Nat) ≠ 0 ∧ (∃ c ∈ postgres.exampleTables.chats, c.ID = 1) ∧
    (0 : Int) ≤ 2 ∧ (2 : Int) ≤ 100 ∧
    (service.GetChat (NewRepository postgres.db) 1 2 postgres.exampleTables).1.1 =
      some ⟨1, "a", 0, 0, [⟨3, 1, "z", 3, 3⟩, ⟨4, 1, "w", 2, 2⟩]⟩ ∧
    ∃ chat, service.GetChat (NewRepository postgres.db) 1 2 postgres.exampleTables =
        ((some chat, none), postgres.exampleTables) ∧
      chat.ID = 1 ∧
      (∀ m ∈ chat.Messages, m.ChatID = 1 ∧ m ∈ postgres.exampleTables.messages) ∧
      chat.Messages.Pairwise (fun a b => b.UpdatedAt ≤ a.UpdatedAt) ∧
      (chat.Messages.length : Int) ≤ (if (2 : Int) = 0 then 20 else 2) ∧
      (∀ m ∈ postgres.exampleTables.messages, m.ChatID = 1 → m ∉ chat.Messages →
        ∀ r ∈ chat.Messages, m.UpdatedAt ≤ r.UpdatedAt) :=
  ⟨by decide, ⟨⟨1, "a", 0, 0, []⟩, by decide, rfl⟩, by decide, by decide, by decide,
    GetChat_messages postgres.exampleTables 1 2 (by decide)
      ⟨⟨1, "a", 0, 0, []⟩, by decide, rfl⟩ (by decide) (by decide)⟩

/-- For a non-zero id, `DeleteChat` of the service over the store is the `DELETE`
statement of the store: it reports no error. -/
theorem DeleteChat_db (t : postgres.Tables) (id : Nat) (hid : id ≠ 0) :
    service.DeleteChat (NewRepository postgres.db) id t = postgres.deleteChat id t ∧
    (postgres.deleteChat id t).1 = none := by
  have hnone : (postgres.deleteChat id t).1 = none := by
    unfold postgres.deleteChat
    split_ifs <;> rfl
  refine ⟨?_, hnone⟩
  simp only [service.DeleteChat, hid, if_false, NewRepository, Delete, postgres.db]
  split
  · rename_i err st1 h
    rw [h] at hnone
    exact absurd hnone (by simp)
  · rename_i st1 h
    exact h.symm

/-- C12: in tables that respect the foreign key of `messages`, after `DeleteChat(id)`
has succeeded for a non-zero id, no chat has that id, no message has it as `chat_id`,
every `GetChat(id, limit)` with a limit from 0 to 100 fails with an error that has
`gorm.ErrRecordNotFound` in its chain, and the tables hold the chats and the messages of
the other ids, as they were. -/
theorem DeleteChat_removes_chat (t : postgres.Tables) (id : Nat) (hid : id ≠ 0)
    (hfk : ∀ m ∈ t.messages, ∃ c ∈ t.chats, c.ID = m.ChatID)
    (_hok : (service.DeleteChat (NewRepository postgres.db) id t).1 = none) :
    (∀ c ∈ (service.DeleteChat (NewRepository postgres.db) id t).2.chats, c.ID ≠ id) ∧
    (∀ m ∈ (service.DeleteChat (NewRepository postgres.db) id t).2.messages, m.ChatID ≠ id) ∧
    (∀ limit : Int, 0 ≤ limit → limit ≤ 100 →
      ∃ err, service.GetChat (NewRepository postgres.db) id limit
            (service.DeleteChat (NewRepository postgres.db) id t).2 =
          ((none, some err), (service.DeleteChat (NewRepository postgres.db) id t).2) ∧
        errorsIs err gorm.ErrRecordNotFound) ∧
    (service.DeleteChat (NewRepository postgres.db) id t).2.chats =
      t.chats.filter (fun c => c.ID ≠ id) ∧
    (service.DeleteChat (NewRepository postgres.db) id t).2.messages =
      t.messages.filter (fun m => m.ChatID ≠ id) := by
  rw [(DeleteChat_db t id hid).1]
  have hchats : (postgres.deleteChat id t).2.chats = t.chats.filter (fun c => c.ID ≠ id) := by
    unfold postgres.deleteChat
    split_ifs with h
    · rfl
    · symm
      rw [List.filter_eq_self]
      intro c hc
      simp only [List.any_eq_true, decide_eq_true_eq, not_exists, not_and] at h
      simpa using h c hc
  have hmsgs : (postgres.deleteChat id t).2.messages =
      t.messages.filter (fun m => m.ChatID ≠ id) := by
    unfold postgres.deleteChat
    split_ifs with h
    · rfl
    · symm
      rw [List.filter_eq_self]
      intro m hm
      simp only [List.any_eq_true, decide_eq_true_eq, not_exists, not_and] at h
      obtain ⟨c, hc, hcm⟩ := hfk m hm
      have := h c hc
      simp only [ne_eq, decide_not, Bool.not_eq_true', decide_eq_false_iff_not]
      intro hmid
      exact this (hcm.trans hmid)
  have hnochat : ∀ c ∈ (postgres.deleteChat id t).2.chats, c.ID ≠ id := by
    intro c hc
    rw [hchats] at hc
    simpa using (List.mem_filter.1 hc).2
  refine ⟨hnochat, ?_, ?_, hchats, hmsgs⟩
  · intro m hm
    rw [hmsgs] at hm
    simpa using (List.mem_filter.1 hm).2
  · intro limit h0 h100
    exact ⟨_, GetChat_db_of_missing _ id limit hid hnochat h0 h100, by decide⟩

/-- C12, at a concrete input: chat 1 of the example tables is deleted; chat 2 and its
message stay. -/
theorem DeleteChat_removes_chat_witness :
    (1 : Nat) ≠ 0 ∧
    (∀ m ∈ postgres.exampleTables.messages,
      ∃ c ∈ postgres.exampleTables.chats, c.ID = m.ChatID) ∧
    (service.DeleteChat (NewRepository postgres.db) 1 postgres.exampleTables).1 = none ∧
    (service.DeleteChat (NewRepository postgres.db) 1 postgres.exampleTables).2.chats =
      [⟨2, "b", 0, 0, []⟩] ∧
    (service.DeleteChat (NewRepository postgres.db) 1 postgres.exampleTables).2.messages =
      [⟨2, 2, "y", 5, 5⟩] :=
  ⟨by decide, by decide, by decide,
    ((DeleteChat_removes_chat postgres.exampleTables 1 (by decide) (by decide)
      (by decide)).2.2.2.1).trans (by decide),
    ((DeleteChat_removes_chat postgres.exampleTables 1 (by decide) (by decide)
      (by decide)).2.2.2.2).trans (by decide)⟩

/-- C13: for a non-zero id without a row, `DeleteChat` reports success and leaves the
tables as they were.  Over any store handle, `Repository.Delete` and with it
`DeleteChat` return nil whenever the `Delete` of the handle reports no error, whatever
it deleted; so deleting the same chat twice succeeds both times. -/
theorem DeleteChat_missing_succeeds (t : postgres.Tables) (id : Nat) (hid : id ≠ 0)
    (hrow : ∀ c ∈ t.chats, c.ID ≠ id) :
    service.DeleteChat (NewRepository postgres.db) id t = (none, t) ∧
    (∀ (σ : Type) (db : gorm.DB σ) (st st1 : σ), db.Delete id st = (none, st1) →
      Delete db id st = (none, st1) ∧
      service.DeleteChat (NewRepository db) id st = (none, st1)) ∧
    (∀ t0 : postgres.Tables,
      (service.DeleteChat (NewRepository postgres.db) id t0).1 = none ∧
      (service.DeleteChat (NewRepository postgres.db) id
        (service.DeleteChat (NewRepository postgres.db) id t0).2).1 = none) := by
  refine ⟨?_, ?_, ?_⟩
  · rw [(DeleteChat_db t id hid).1]
    have hany : t.chats.any (fun c => decide (c.ID = id)) = false := by
      rw [List.any_eq_false]
      intro c hc
      simpa using hrow c hc
    simp [postgres.deleteChat, hany]
  · intro σ db st st1 h
    have hdel : Delete db id st = (none, st1) := by simp [Delete, h]
    exact ⟨hdel, by simp only [service.DeleteChat, hid, if_false, NewRepository, hdel]⟩
  · intro t0
    rw [(DeleteChat_db t0 id hid).1, (DeleteChat_db _ id hid).1]
    exact ⟨(DeleteChat_db t0 id hid).2, (DeleteChat_db _ id hid).2⟩

/-- C13, at a concrete input: chat 7 is not in the example tables, and chat 1 is
deleted twice. -/
theorem DeleteChat_missing_succeeds_witness :
    (7 : Nat) ≠ 0 ∧ (∀ c ∈ postgres.exampleTables.chats, c.ID ≠ 7) ∧
    service.DeleteChat (NewRepository postgres.db) 7 postgres.exampleTables =
      (none, postgres.exampleTables) ∧
    (service.DeleteChat (NewRepository postgres.db) 1
      (service.DeleteChat (NewRepository postgres.db) 1 postgres.exampleTables).2).1 = none :=
  ⟨by decide, by decide,
    (DeleteChat_missing_succeeds postgres.exampleTables 7 (by decide) (by decide)).1,
    by decide⟩

end repository

/-! ## Trimmed strings -/

/-- A list trimmed on the left and then on the right is not changed by trimming it on
the left again: its first element, if any, is the first element of the left-trimmed
list. -/
theorem dropWhile_rdropWhile_dropWhile {α : Type} (p : α → Bool) (l : List α) :
    ((l.dropWhile p).rdropWhile p).dropWhile p = (l.dropWhile p).rdropWhile p := by
  obtain ⟨sfx, hsfx⟩ := List.rdropWhile_prefix p (l := l.dropWhile p)
  have hself : (l.dropWhile p).dropWhile p = l.dropWhile p := List.dropWhile_idempotent p l
  cases hl : (l.dropWhile p).rdropWhile p with
  | nil => rfl
  | cons a rest =>
    rw [hl] at hsfx
    rw [← hsfx, List.dropWhile_eq_self_iff] at hself
    have hpa : ¬ p a = true := by
      simpa using hself (by simp)
    simp [List.dropWhile_cons, hpa]

/-- Trimming a trimmed string changes nothing. -/
theorem TrimSpace_idempotent (s : String) : TrimSpace (TrimSpace s) = TrimSpace s := by
  unfold TrimSpace
  simp only [dropWhile_rdropWhile_dropWhile, List.rdropWhile_idempotent]

/-- The first character of a trimmed string is not white space. -/
theorem TrimSpace_head (s : String) (c : Char) (h : (TrimSpace s).data.head? = some c) :
    isSpace c = false := by
  have hself := dropWhile_rdropWhile_dropWhile isSpace s.data
  have hdata : (TrimSpace s).data = (s.data.dropWhile isSpace).rdropWhile isSpace := rfl
  rw [hdata] at h
  rw [List.dropWhile_eq_self_iff] at hself
  cases hl : (s.data.dropWhile isSpace).rdropWhile isSpace with
  | nil => rw [hl] at h; simp at h
  | cons a rest =>
    have hpos : 0 < ((s.data.dropWhile isSpace).rdropWhile isSpace).length := by
      rw [hl]; simp
    have hnot := hself hpos
    simp only [hl, List.head?_cons, Option.some.injEq] at h
    simp only [List.get_eq_getElem, hl, List.getElem_cons_zero] at hnot
    subst h
    simpa using hnot

/-- The last character of a trimmed string is not white space. -/
theorem TrimSpace_last (s : String) (c : Char) (h : (TrimSpace s).data.getLast? = some c) :
    isSpace c = false := by
  have hdata : (TrimSpace s).data = (s.data.dropWhile isSpace).rdropWhile isSpace := rfl
  rw [hdata] at h
  have hne : (s.data.dropWhile isSpace).rdropWhile isSpace ≠ [] := by
    intro hnil
    rw [hnil] at h
    simp at h
  have hnot := List.rdropWhile_last_not isSpace (s.data.dropWhile isSpace) hne
  rw [List.getLast?_eq_getLast _ hne, Option.some.injEq] at h
  rw [h] at hnot
  simpa using hnot

namespace service

open models

/-- C14: every title that `CreateChat` hands to `repo.Create` and every text that
`SendMessage` hands to `repo.CreateMessage` is not empty, is left unchanged by
`TrimSpace`, and neither starts nor ends with a white-space character. -/
theorem stored_strings_trimmed {σ : Type} (repo : ChatRepository σ) (title : String)
    (chatID : Nat) (text : String) (st : σ) :
    (∀ chat : Chat,
      RepoCall.Create chat ∈ (CreateChat (recording repo) title (st, [])).2.2 →
      chat.Title ≠ "" ∧ TrimSpace chat.Title = chat.Title ∧
      (∀ c, chat.Title.data.head? = some c → isSpace c = false) ∧
      (∀ c, chat.Title.data.getLast? = some c → isSpace c = false)) ∧
    (∀ (id : Nat) (message : Message),
      RepoCall.CreateMessage id message ∈
        (SendMessage (recording repo) chatID text (st, [])).2.2 →
      message.Text ≠ "" ∧ TrimSpace message.Text = message.Text ∧
      (∀ c, message.Text.data.head? = some c → isSpace c = false) ∧
      (∀ c, message.Text.data.getLast? = some c → isSpace c = false)) := by
  constructor
  · intro chat hmem
    by_cases h1 : TrimSpace title = ""
    · simp [CreateChat, h1] at hmem
    · by_cases h2 : 200 < len (TrimSpace title)
      · simp [CreateChat, h1, h2] at hmem
      · simp only [CreateChat, h1, h2, gt_iff_lt, if_false, recording, List.nil_append,
          List.mem_singleton, RepoCall.Create.injEq] at hmem
        subst hmem
        exact ⟨h1, TrimSpace_idempotent title, TrimSpace_head title, TrimSpace_last title⟩
  · intro id message hmem
    by_cases hid : chatID = 0
    · simp [SendMessage, hid] at hmem
    · by_cases h1 : TrimSpace text = ""
      · simp [SendMessage, hid, h1] at hmem
      · by_cases h2 : 5000 < len (TrimSpace text)
        · simp [SendMessage, hid, h1, h2] at hmem
        · simp only [SendMessage, hid, h1, h2, gt_iff_lt, if_false, recording, List.nil_append,
            List.mem_singleton, RepoCall.CreateMessage.injEq] at hmem
          obtain ⟨_, hmsg⟩ := hmem
          subst hmsg
          exact ⟨h1, TrimSpace_idempotent text, TrimSpace_head text, TrimSpace_last text⟩

/-- C14, at a concrete input: the title `"  Hello  "` reaches the repository as
`"Hello"` and the text `"  hi  "` as `"hi"`. -/
theorem stored_strings_trimmed_witness :
    RepoCall.Create ⟨0, "Hello", 0, 0, []⟩ ∈
      (CreateChat (recording (MockChatRepository (some {}, none) (none, none) none
        (some {}, none))) "  Hello  " ((), [])).2.2 ∧
    RepoCall.CreateMessage 1 ⟨0, 1, "hi", 0, 0⟩ ∈
      (SendMessage (recording (MockChatRepository (some {}, none) (none, none) none
        (some {}, none))) 1 "  hi  " ((), [])).2.2 ∧
    TrimSpace "Hello" = "Hello" ∧ TrimSpace "hi" = "hi" :=
  ⟨by decide, by decide,
    ((stored_strings_trimmed (MockChatRepository (some {}, none) (none, none) none
      (some {}, none)) "  Hello  " 1 "  hi  " ()).1 ⟨0, "Hello", 0, 0, []⟩ (by decide)).2.1,
    ((stored_strings_trimmed (MockChatRepository (some {}, none) (none, none) none
      (some {}, none)) "  Hello  " 1 "  hi  " ()).2 1 ⟨0, 1, "hi", 0, 0⟩ (by decide)).2.1⟩

end service

/-- A string without white space is left unchanged by `TrimSpace`. -/
theorem TrimSpace_of_no_space (s : String) (h : ∀ c ∈ s.data, isSpace c = false) :
    TrimSpace s = s := by
  have hdrop : s.data.dropWhile isSpace = s.data := by
    rw [List.dropWhile_eq_self_iff]
    intro hl
    rw [h _ (List.get_mem _ _ _)]
    simp
  have hrdrop : s.data.rdropWhile isSpace = s.data := by
    rw [List.rdropWhile_eq_self_iff]
    intro hl
    rw [h _ (List.getLast_mem hl)]
    simp
  show (⟨(s.data.dropWhile isSpace).rdropWhile isSpace⟩ : String) = s
  rw [hdrop, hrdrop]

/-- The number of bytes of a string made of one character repeated. -/
theorem len_replicate (n : Nat) (c : Char) : len ⟨List.replicate n c⟩ = n * runeLen c := by
  simp [len, List.map_replicate, List.sum_replicate]

namespace service

open models

/-- What `CreateChat` returns for a title whose trimmed form is not empty and longer
than 200 bytes. -/
theorem CreateChat_of_long {σ : Type} (repo : ChatRepository σ) (t : String) (st : σ)
    (h1 : TrimSpace t ≠ "") (h2 : 200 < len (TrimSpace t)) :
    CreateChat repo t st =
      ((none, some (GoError.errorString "chat title cannot exceed 200 characters")), st) := by
  simp [CreateChat, h1, h2, Errorf]

/-- C15: a title of 150 Cyrillic letters has 150 characters after trimming, and 300
bytes; `CreateChat` compares the number of bytes with 200 and rejects it with "chat
title cannot exceed 200 characters", without a call of the repository. -/
theorem CreateChat_rejects_cyrillic_title {σ : Type} (repo : ChatRepository σ) (st : σ)
    (log : List RepoCall) :
    TrimSpace ⟨List.replicate 150 'я'⟩ ≠ "" ∧
    (TrimSpace ⟨List.replicate 150 'я'⟩).length = 150 ∧
    len (TrimSpace ⟨List.replicate 150 'я'⟩) = 300 ∧
    CreateChat (recording repo) ⟨List.replicate 150 'я'⟩ (st, log) =
      ((none, some (GoError.errorString "chat title cannot exceed 200 characters")),
        (st, log)) := by
  have hspace : isSpace 'я' = false := by decide
  have hrune : runeLen 'я' = 2 := by decide
  have htrim : TrimSpace ⟨List.replicate 150 'я'⟩ = ⟨List.replicate 150 'я'⟩ := by
    apply TrimSpace_of_no_space
    intro c hc
    rw [List.eq_of_mem_replicate hc]
    exact hspace
  have hlen : len ⟨List.replicate 150 'я'⟩ = 300 := by
    rw [len_replicate, hrune]
  have hlength : (⟨List.replicate 150 'я'⟩ : String).length = 150 := List.length_replicate _ _
  have hne : (⟨List.replicate 150 'я'⟩ : String) ≠ "" := by
    intro h
    rw [h] at hlength
    exact absurd hlength (by decide)
  refine ⟨by rw [htrim]; exact hne, by rw [htrim]; exact hlength, by rw [htrim]; exact hlen, ?_⟩
  exact CreateChat_of_long _ _ _ (by rw [htrim]; exact hne) (by rw [htrim, hlen]; decide)

end service

/-! ## Contracts of the handlers -/

namespace handlers

open models

/-- C16: for a POST request whose body decodes, when the service returns an error, an
error of the repository included, the handler `CreateChat` answers with status 400 Bad
Request and the message of the error as body, in the state the service left. -/
theorem CreateChat_error_status {σ : Type} (codec : json.Codec) (svc : ChatService σ)
    (r : http.Request) (st st1 : σ) (req : CreateChatRequest) (c : Option Chat) (e : GoError)
    (hmethod : r.Method = "POST") (hbody : codec.DecodeCreateChatRequest r.Body = some req)
    (herr : svc.CreateChat req.Title st = ((c, some e), st1)) :
    CreateChat codec svc r st = (http.Error e.Error 400, st1) ∧
    (CreateChat codec svc r st).1.StatusCode = 400 ∧
    (CreateChat codec svc r st).1.Body = e.Error ++ "\n" := by
  have h : CreateChat codec svc r st = (http.Error e.Error 400, st1) := by
    simp [CreateChat, hmethod, hbody, herr]
  rw [h]
  exact ⟨rfl, rfl, rfl⟩

/-- C16, at a concrete input: the service over the mock of
`TestCreateChat_RepositoryError`, whose `Create` fails with "database error". -/
theorem CreateChat_error_status_witness :
    ("POST" : String) = "POST" ∧
    json.exampleCodec.DecodeCreateChatRequest "\x7b\"title\":\"Valid Title\"\x7d" =
      some ⟨"Valid Title"⟩ ∧
    (service.NewChatService (service.MockChatRepository
        (none, some (GoError.errorString "database error")) (none, none) none
        (none, none))).CreateChat "Valid Title" () =
      ((none, some (GoError.errorString "database error")), ()) ∧
    CreateChat json.exampleCodec (service.NewChatService (service.MockChatRepository
        (none, some (GoError.errorString "database error")) (none, none) none (none, none)))
        ⟨"POST", "/chats", [], "\x7b\"title\":\"Valid Title\"\x7d"⟩ () =
      (⟨400, "text/plain; charset=utf-8", "database error\n"⟩, ()) :=
  ⟨rfl, by decide, by decide,
    (CreateChat_error_status json.exampleCodec (service.NewChatService
      (service.MockChatRepository (none, some (GoError.errorString "database error"))
        (none, none) none (none, none)))
      ⟨"POST", "/chats", [], "\x7b\"title\":\"Valid Title\"\x7d"⟩ () () ⟨"Valid Title"⟩ none
      (GoError.errorString "database error") rfl (by decide) (by decide)).1⟩

/-- C16 fails as stated: a valid JSON body with the valid title "Valid Title", a
repository that fails with "database error", and the status of the response is 400,
which is not a 5xx code. -/
theorem CreateChat_store_error_not_5xx :
    json.exampleCodec.DecodeCreateChatRequest "\x7b\"title\":\"Valid Title\"\x7d" =
      some ⟨"Valid Title"⟩ ∧
    (TrimSpace "Valid Title" ≠ "" ∧ len (TrimSpace "Valid Title") ≤ 200) ∧
    ((service.NewChatService (service.MockChatRepository
        (none, some (GoError.errorString "database error")) (none, none) none
        (none, none))).CreateChat "Valid Title" ()).1.2 =
      some (GoError.errorString "database error") ∧
    (CreateChat json.exampleCodec (service.NewChatService (service.MockChatRepository
        (none, some (GoError.errorString "database error")) (none, none) none (none, none)))
        ⟨"POST", "/chats", [], "\x7b\"title\":\"Valid Title\"\x7d"⟩ ()).1.StatusCode = 400 ∧
    ¬ (500 ≤ (CreateChat json.exampleCodec (service.NewChatService
        (service.MockChatRepository (none, some (GoError.errorString "database error"))
          (none, none) none (none, none)))
        ⟨"POST", "/chats", [], "\x7b\"title\":\"Valid Title\"\x7d"⟩ ()).1.StatusCode ∧
      (CreateChat json.exampleCodec (service.NewChatService
        (service.MockChatRepository (none, some (GoError.errorString "database error"))
          (none, none) none (none, none)))
        ⟨"POST", "/chats", [], "\x7b\"title\":\"Valid Title\"\x7d"⟩ ()).1.StatusCode ≤ 599) := by
  decide

end handlers

namespace handlers

open models

/-- What `GetMessages` does for a GET request whose path yields `chatID`.  It calls
`GetChat` of the service once, with a limit `l` that is `n` when the `limit` parameter
parses as a positive `n` and 0 when it does not; it leaves the state that call leaves,
answers an error of the service with status 404 and the message of the error, and
answers with status 200 when it answers without one. -/
theorem GetMessages_of_path {σ : Type} (codec : json.Codec) (svc : ChatService σ)
    (r : http.Request) (st : σ) (chatID : Nat) (hmethod : r.Method = "GET")
    (hpath : extractIDFromPath r.Path = (chatID, none)) :
    ∃ l : Int,
      (∀ n : Int, strconv.Atoi (http.Get r.Query "limit") = (n, none) → 0 < n → l = n) ∧
      (¬ (∃ n : Int, strconv.Atoi (http.Get r.Query "limit") = (n, none) ∧ 0 < n) → l = 0) ∧
      (GetMessages codec svc r st).2 = (svc.GetChat chatID l st).2 ∧
      (∀ e, (svc.GetChat chatID l st).1.2 = some e →
        (GetMessages codec svc r st).1 = some (http.Error e.Error 404)) ∧
      ((svc.GetChat chatID l st).1.2 = none →
        ∀ resp, (GetMessages codec svc r st).1 = some resp → resp.StatusCode = 200) := by
  have hempty : strconv.Atoi "" = (0, some strconv.NumError.ErrSyntax) := by decide
  refine ⟨if http.Get r.Query "limit" ≠ "" then
      (match strconv.Atoi (http.Get r.Query "limit") with
        | (parsedLimit, none) => if parsedLimit > 0 then parsedLimit else 0
        | (_, some _) => 0)
      else 0, ?_, ?_, ?_, ?_, ?_⟩
  · intro n hn hpos
    have hne : http.Get r.Query "limit" ≠ "" := by
      intro h
      rw [h, hempty] at hn
      simp at hn
    simp [hne, hn, hpos]
  · intro hnot
    split_ifs with h
    · split
      · rename_i parsed hp
        split_ifs with hpos
        · exact absurd ⟨parsed, hp, hpos⟩ hnot
        · rfl
      · rfl
    · rfl
  all_goals
    have key : ∀ l : Int,
        ((match svc.GetChat chatID l st with
          | ((_, some err), st1) => (some (http.Error err.Error 404), st1)
          | ((none, none), st1) => (none, st1)
          | ((some chat, none), st1) =>
            (some ⟨200, "application/json", codec.EncodeChatResponse
              { ID := chat.ID, Title := chat.Title, CreatedAt := chat.CreatedAt,
                Messages := chat.Messages.map (fun msg =>
                  ({ ID := msg.ID, ChatID := msg.ChatID, Text := msg.Text,
                     CreatedAt := msg.CreatedAt } : MessageResponse)) }⟩, st1) :
            Option http.Response × σ).2 = (svc.GetChat chatID l st).2) ∧
        (∀ e, (svc.GetChat chatID l st).1.2 = some e →
          ((match svc.GetChat chatID l st with
            | ((_, some err), st1) => (some (http.Error err.Error 404), st1)
            | ((none, none), st1) => (none, st1)
            | ((some chat, none), st1) =>
              (some ⟨200, "application/json", codec.EncodeChatResponse
                { ID := chat.ID, Title := chat.Title, CreatedAt := chat.CreatedAt,
                  Messages := chat.Messages.map (fun msg =>
                    ({ ID := msg.ID, ChatID := msg.ChatID, Text := msg.Text,
                       CreatedAt := msg.CreatedAt } : MessageResponse)) }⟩, st1) :
              Option http.Response × σ).1 = some (http.Error e.Error 404))) ∧
        ((svc.GetChat chatID l st).1.2 = none →
          ∀ resp, ((match svc.GetChat chatID l st with
            | ((_, some err), st1) => (some (http.Error err.Error 404), st1)
            | ((none, none), st1) => (none, st1)
            | ((some chat, none), st1) =>
              (some ⟨200, "application/json", codec.EncodeChatResponse
                { ID := chat.ID, Title := chat.Title, CreatedAt := chat.CreatedAt,
                  Messages := chat.Messages.map (fun msg =>
                    ({ ID := msg.ID, ChatID := msg.ChatID, Text := msg.Text,
                       CreatedAt := msg.CreatedAt } : MessageResponse)) }⟩, st1) :
              Option http.Response × σ).1 = some resp) → resp.StatusCode = 200) := by
      intro l
      refine ⟨?_, ?_, ?_⟩
      · split <;> rename_i h <;> simp [h]
      · intro e he
        split <;> rename_i h <;> rw [h] at he <;> simp_all
      · intro hnone resp hresp
        split at hresp <;> rename_i h <;> rw [h] at hnone <;> simp_all
        rw [← hresp]
  · simp only [GetMessages, hmethod, hpath, ne_eq, not_true_eq_false, if_false]
    exact (key _).1
  · simp only [GetMessages, hmethod, hpath, ne_eq, not_true_eq_false, if_false]
    exact (key _).2.1
  · simp only [GetMessages, hmethod, hpath, ne_eq, not_true_eq_false, if_false]
    exact (key _).2.2

end handlers

namespace handlers

open models

/-- C17: for a GET request whose path yields `chatID`, `GetMessages` calls `GetChat` of
the service once, with limit `n` when the `limit` parameter parses as an integer
`n > 0` and with limit 0 in every other case.  Hence, over the service of package
service and for a non-zero chat ID, a negative limit reaches the repository as a `Get`
with limit 20 and the answer is not the error "limit cannot be negative", while a limit
over 100 is answered with the error "limit cannot exceed 100 messages", without a call
of the repository. -/
theorem GetMessages_limit {σ : Type} (codec : json.Codec) (svc : ChatService σ)
    (repo : service.ChatRepository σ) (r : http.Request) (st : σ)
    (slog : List service.ServiceCall) (rlog : List service.RepoCall) (chatID : Nat)
    (hmethod : r.Method = "GET") (hpath : extractIDFromPath r.Path = (chatID, none)) :
    (∀ n : Int, strconv.Atoi (http.Get r.Query "limit") = (n, none) → 0 < n →
      (GetMessages codec (service.recordingService svc) r (st, slog)).2.2 =
        slog ++ [service.ServiceCall.GetChat chatID n]) ∧
    (¬ (∃ n : Int, strconv.Atoi (http.Get r.Query "limit") = (n, none) ∧ 0 < n) →
      (GetMessages codec (service.recordingService svc) r (st, slog)).2.2 =
        slog ++ [service.ServiceCall.GetChat chatID 0]) ∧
    (∀ n : Int, strconv.Atoi (http.Get r.Query "limit") = (n, none) → n < 0 → chatID ≠ 0 →
      (GetMessages codec (service.NewChatService (service.recording repo)) r (st, rlog)).2.2 =
        rlog ++ [service.RepoCall.Get chatID 20] ∧
      (GetMessages codec (service.NewChatService (service.recording repo)) r (st, rlog)).1 ≠
        some (http.Error "limit cannot be negative" 404)) ∧
    (∀ n : Int, strconv.Atoi (http.Get r.Query "limit") = (n, none) → 100 < n → chatID ≠ 0 →
      GetMessages codec (service.NewChatService (service.recording repo)) r (st, rlog) =
        (some (http.Error "limit cannot exceed 100 messages" 404), (st, rlog))) := by
  refine ⟨?_, ?_, ?_, ?_⟩
  · intro n hn hpos
    obtain ⟨l, hl, _, hstate, _, _⟩ :=
      GetMessages_of_path codec (service.recordingService svc) r (st, slog) chatID hmethod hpath
    rw [hstate, hl n hn hpos]
    rfl
  · intro hnot
    obtain ⟨l, _, hl, hstate, _, _⟩ :=
      GetMessages_of_path codec (service.recordingService svc) r (st, slog) chatID hmethod hpath
    rw [hstate, hl hnot]
    rfl
  · intro n hn hneg hid
    obtain ⟨l, _, hl, hstate, herr, hok⟩ :=
      GetMessages_of_path codec (service.NewChatService (service.recording repo)) r (st, rlog)
        chatID hmethod hpath
    have hnot : ¬ (∃ m : Int, strconv.Atoi (http.Get r.Query "limit") = (m, none) ∧ 0 < m) := by
      rintro ⟨m, hm, hpos⟩
      rw [hn] at hm
      have : n = m := by simpa using hm
      omega
    rw [hl hnot] at hstate herr hok
    have hget : (service.NewChatService (service.recording repo)).GetChat chatID 0 (st, rlog) =
        service.GetChat (service.recording repo) chatID 0 (st, rlog) := rfl
    rw [hget, service.GetChat_of_valid _ chatID 0 (st, rlog) hid (by decide) (by decide)]
      at hstate herr hok
    refine ⟨by rw [hstate]; rfl, ?_⟩
    intro hresp
    cases hrepo : ((service.recording repo).Get chatID
        (if (0 : Int) = 0 then 20 else 0) (st, rlog)).1.2 with
    | none =>
      have h200 := hok (by rw [hrepo]; rfl) _ hresp
      exact absurd h200 (by decide)
    | some e =>
      have h1 := herr (ErrorfW "failed to get chat: " e) (by rw [hrepo]; rfl)
      rw [hresp] at h1
      have h2 := congrArg (fun x => (Option.map (fun (y : http.Response) => y.Body.data.head?) x)) h1
      simp [http.Error, ErrorfW, GoError.Error, String.data_append] at h2
  · intro n hn hbig hid
    obtain ⟨l, hl, _, hstate, herr, _⟩ :=
      GetMessages_of_path codec (service.NewChatService (service.recording repo)) r (st, rlog)
        chatID hmethod hpath
    rw [hl n hn (by omega)] at hstate herr
    have hz : n ≠ 0 := by omega
    have hn0 : ¬ n < 0 := by omega
    have hget : (service.NewChatService (service.recording repo)).GetChat chatID n (st, rlog) =
        ((none, some (Errorf "limit cannot exceed 100 messages")), (st, rlog)) := by
      show service.GetChat (service.recording repo) chatID n (st, rlog) = _
      simp only [service.GetChat, hid, hz, hn0, hbig, gt_iff_lt, if_false, if_true]
    rw [hget] at hstate herr
    exact Prod.ext (herr _ rfl) hstate

/-- C17, at a concrete input: `GET /chats/1?limit=-5` over the example tables; the
repository is asked for 20 messages of chat 1 and the answer has status 200. -/
theorem GetMessages_limit_witness :
    ("GET" : String) = "GET" ∧ extractIDFromPath "/chats/1" = (1, none) ∧
    strconv.Atoi (http.Get [("limit", "-5")] "limit") = (-5, none) ∧
    (GetMessages json.exampleCodec
        (service.NewChatService (service.recording (repository.NewRepository postgres.db)))
        ⟨"GET", "/chats/1", [("limit", "-5")], ""⟩ (postgres.exampleTables, [])).2.2 =
      [] ++ [service.RepoCall.Get 1 20] ∧
    (GetMessages json.exampleCodec
        (service.NewChatService (service.recording (repository.NewRepository postgres.db)))
        ⟨"GET", "/chats/1", [("limit", "-5")], ""⟩ (postgres.exampleTables, [])).1 =
      some ⟨200, "application/json", "null"⟩ :=
  ⟨rfl, by decide, by decide,
    ((GetMessages_limit json.exampleCodec
      (service.NewChatService (repository.NewRepository postgres.db))
      (repository.NewRepository postgres.db) ⟨"GET", "/chats/1", [("limit", "-5")], ""⟩
      postgres.exampleTables [] [] 1 rfl (by decide)).2.2.1 (-5) (by decide) (by decide)
      (by decide)).1,
    by decide⟩

end handlers

/-! ## Parsing the id of a path -/

namespace strconv

/-- Reading more digits does not make the number smaller. -/
theorem le_foldl_digits (ds : List Char) (n : Nat) :
    n ≤ ds.foldl (fun acc c => acc * 10 + (c.toNat - 48)) n := by
  induction ds generalizing n with
  | nil => exact Nat.le_refl n
  | cons c cs ih =>
    simp only [List.foldl_cons]
    exact Nat.le_trans (by omega) (ih _)

/-- On decimal digits and from an accumulator within 32 bits, the loop of `ParseUint`
returns the number read when it fits in 32 bits and a range error when it does not. -/
theorem parseUintLoop_digits (ds : List Char) (n : Nat) (hn : n ≤ 4294967295)
    (hds : ∀ c ∈ ds, 48 ≤ c.toNat ∧ c.toNat ≤ 57) :
    (ds.foldl (fun acc c => acc * 10 + (c.toNat - 48)) n ≤ 4294967295 →
      parseUintLoop 4294967295 ds n =
        (ds.foldl (fun acc c => acc * 10 + (c.toNat - 48)) n, none)) ∧
    (4294967295 < ds.foldl (fun acc c => acc * 10 + (c.toNat - 48)) n →
      (parseUintLoop 4294967295 ds n).2 = some NumError.ErrRange) := by
  induction ds generalizing n with
  | nil =>
    constructor
    · intro _; rfl
    · intro h
      simp only [List.foldl_nil] at h
      omega
  | cons c cs ih =>
    have hc := hds c (List.mem_cons_self c cs)
    have hcs : ∀ x ∈ cs, 48 ≤ x.toNat ∧ x.toNat ≤ 57 :=
      fun x hx => hds x (List.mem_cons_of_mem c hx)
    have hcut : ¬ n ≥ (2 ^ 64 - 1) / 10 + 1 := by
      norm_num
      omega
    have h10 : n * 10 % 2 ^ 64 = n * 10 := by
      apply Nat.mod_eq_of_lt
      norm_num
      omega
    have h1 : (n * 10 + (c.toNat - 48)) % 2 ^ 64 = n * 10 + (c.toNat - 48) := by
      apply Nat.mod_eq_of_lt
      norm_num
      omega
    have hmono := le_foldl_digits cs (n * 10 + (c.toNat - 48))
    simp only [List.foldl_cons]
    by_cases hbig : n * 10 + (c.toNat - 48) > 4294967295
    · have hstep : parseUintLoop 4294967295 (c :: cs) n =
          (4294967295, some NumError.ErrRange) := by
        simp only [parseUintLoop, hc, and_self, if_true, hcut, if_false, h10, h1]
        rw [if_pos (Or.inr hbig)]
      constructor
      · intro h
        omega
      · intro _
        rw [hstep]
    · have hstep : parseUintLoop 4294967295 (c :: cs) n =
          parseUintLoop 4294967295 cs (n * 10 + (c.toNat - 48)) := by
        simp only [parseUintLoop, hc, and_self, if_true, hcut, if_false, h10, h1]
        rw [if_neg (by omega)]
      rw [hstep]
      exact ih _ (by omega) hcs

/-- A character that is not a decimal digit makes the loop of `ParseUint` fail. -/
theorem parseUintLoop_not_digit (maxVal : Nat) (ds : List Char) (n : Nat)
    (hds : ∃ c ∈ ds, ¬ (48 ≤ c.toNat ∧ c.toNat ≤ 57)) :
    (parseUintLoop maxVal ds n).2 ≠ none := by
  induction ds generalizing n with
  | nil =>
    obtain ⟨c, hc, _⟩ := hds
    simp at hc
  | cons c cs ih =>
    by_cases hc : 48 ≤ c.toNat ∧ c.toNat ≤ 57
    · have hcs : ∃ x ∈ cs, ¬ (48 ≤ x.toNat ∧ x.toNat ≤ 57) := by
        obtain ⟨x, hx, hnot⟩ := hds
        rcases List.mem_cons.1 hx with rfl | hx
        · exact absurd hc hnot
        · exact ⟨x, hx, hnot⟩
      simp only [parseUintLoop, hc, and_self, if_true]
      split_ifs
      · simp
      · simp
      · exact ih _ hcs
    · simp [parseUintLoop, hc]

/-- The call `ParseUint(s, 10, 32)` succeeds exactly on the unsigned base-10 integers
that fit in 32 bits, and then returns the number the digits denote. -/
theorem ParseUint_32 (s : String) :
    ((ParseUint s 32).2 = none ↔ handlers.IsUint32Decimal s) ∧
    (handlers.IsUint32Decimal s → ParseUint s 32 = (handlers.decimalValue s.data, none)) := by
  have hmax : 2 ^ (if (32 : Nat) = 0 then 64 else 32) - 1 = 4294967295 := by norm_num
  have hpow : (2 : Nat) ^ 32 = 4294967296 := by norm_num
  have hempty : s = "" ↔ s.data = [] := by
    constructor
    · rintro rfl; rfl
    · intro h; cases s; simp_all
  have hok : handlers.IsUint32Decimal s → ParseUint s 32 = (handlers.decimalValue s.data, none) := by
    rintro ⟨hne, hdig, hval⟩
    have hs : s ≠ "" := fun h => hne (hempty.1 h)
    simp only [ParseUint, hs, if_false, hmax]
    exact (parseUintLoop_digits s.data 0 (by omega) hdig).1
      (by unfold handlers.decimalValue at hval; omega)
  refine ⟨⟨?_, fun h => by rw [hok h]⟩, hok⟩
  intro h
  by_cases hs : s = ""
  · simp [ParseUint, hs] at h
  · simp only [ParseUint, hs, if_false, hmax] at h
    by_cases hdig : ∀ c ∈ s.data, 48 ≤ c.toNat ∧ c.toNat ≤ 57
    · refine ⟨fun hnil => hs (hempty.2 hnil), hdig, ?_⟩
      by_contra hval
      have := (parseUintLoop_digits s.data 0 (by omega) hdig).2
        (by unfold handlers.decimalValue at hval; omega)
      rw [h] at this
      simp at this
    · push_neg at hdig
      obtain ⟨c, hc, hnot⟩ := hdig
      exact absurd h (parseUintLoop_not_digit _ s.data 0 ⟨c, hc, by omega⟩)

end strconv

/-- The character of a decimal digit has the code of `0` plus the digit. -/
theorem digitChar_toNat (d : Nat) (hd : d < 10) : (Nat.digitChar d).toNat = 48 + d := by
  interval_cases d <;> rfl

/-- The digits `Nat.toDigits` puts in front of `ds` are decimal digits that extend the
number read so far by `n`. -/
theorem toDigitsCore_decimal (fuel n : Nat) (ds : List Char) (hfuel : n < fuel) :
    ∃ front : List Char, Nat.toDigitsCore 10 fuel n ds = front ++ ds ∧ front ≠ [] ∧
      (∀ c ∈ front, 48 ≤ c.toNat ∧ c.toNat ≤ 57) ∧
      ∀ acc : Nat, front.foldl (fun a c => a * 10 + (c.toNat - 48)) acc =
        acc * 10 ^ front.length + n := by
  induction fuel generalizing n ds with
  | zero => omega
  | succ fuel ih =>
    have hmod : n % 10 < 10 := Nat.mod_lt _ (by decide)
    have hchar := digitChar_toNat (n % 10) hmod
    by_cases hq : n / 10 = 0
    · refine ⟨[Nat.digitChar (n % 10)], by simp [Nat.toDigitsCore, hq], by simp, ?_, ?_⟩
      · intro c hc
        rw [List.mem_singleton] at hc
        subst hc
        omega
      · intro acc
        simp only [List.foldl_cons, List.foldl_nil, List.length_singleton, pow_one, hchar]
        omega
    · obtain ⟨front, hfront, _, hdig, hval⟩ :=
        ih (n / 10) (Nat.digitChar (n % 10) :: ds) (by omega)
      refine ⟨front ++ [Nat.digitChar (n % 10)], ?_, by simp, ?_, ?_⟩
      · simp [Nat.toDigitsCore, hq, hfront]
      · intro c hc
        rcases List.mem_append.1 hc with hc | hc
        · exact hdig c hc
        · rw [List.mem_singleton] at hc
          subst hc
          omega
      · intro acc
        simp only [List.foldl_append, List.foldl_cons, List.foldl_nil, hval, hchar,
          List.length_append, List.length_singleton, pow_succ]
        have := Nat.div_add_mod n 10
        have hsub : 48 + n % 10 - 48 = n % 10 := by omega
        rw [hsub]
        nlinarith [Nat.div_add_mod n 10]

/-- The decimal representation of a number: not empty, made of decimal digits, and
denoting the number. -/
theorem repr_decimal (n : Nat) :
    (Nat.repr n).data ≠ [] ∧ (∀ c ∈ (Nat.repr n).data, 48 ≤ c.toNat ∧ c.toNat ≤ 57) ∧
    handlers.decimalValue (Nat.repr n).data = n := by
  obtain ⟨front, hfront, hne, hdig, hval⟩ := toDigitsCore_decimal (n + 1) n [] (by omega)
  have hdata : (Nat.repr n).data = front := by
    show Nat.toDigitsCore 10 (n + 1) n [] = front
    rw [hfront, List.append_nil]
  rw [hdata]
  refine ⟨hne, hdig, ?_⟩
  unfold handlers.decimalValue
  rw [hval 0]
  omega

namespace handlers

/-- With fewer than two segments, `extractIDFromPath` fails with "invalid path format". -/
theorem extractIDFromPath_of_short (path : String)
    (h : (Split (Trim path "/") '/').length < 2) :
    extractIDFromPath path = (0, some (Errorf "invalid path format")) := by
  simp [extractIDFromPath, h]

/-- With at least two segments, `extractIDFromPath` is decided by `ParseUint` on the
second one. -/
theorem extractIDFromPath_of_parts (path : String) (first seg : String) (rest : List String)
    (h : Split (Trim path "/") '/' = first :: seg :: rest) :
    extractIDFromPath path =
      (if (strconv.ParseUint seg 32).2 = none then ((strconv.ParseUint seg 32).1, none)
       else (0, some (Errorf "invalid ID format"))) := by
  have hlen : ¬ (Split (Trim path "/") '/').length < 2 := by
    rw [h]
    simp
  unfold extractIDFromPath
  simp only [dif_neg hlen, List.get_eq_getElem, h, List.getElem_cons_succ,
    List.getElem_cons_zero]
  split
  · rename_i hp
    simp only [List.length_cons] at hp
    omega
  · split <;> rename_i hp <;> simp [hp]

end handlers

/-- Slashes around a text that neither starts nor ends with a slash are what
`Trim(path, "/")` removes. -/
theorem Trim_slashes (a b : Nat) (core : List Char) (hcore : core ≠ [])
    (hhead : core.head? ≠ some '/') (hlast : core.getLast? ≠ some '/') :
    Trim ⟨List.replicate a '/' ++ core ++ List.replicate b '/'⟩ "/" = ⟨core⟩ := by
  have hp : ∀ c : Char, ("/".data.contains c) = true ↔ c = '/' := by
    intro c
    simp [List.contains]
  have hleft : ∀ (k : Nat) (l : List Char),
      (List.replicate k '/' ++ l).dropWhile (fun c => "/".data.contains c) =
        l.dropWhile (fun c => "/".data.contains c) := by
    intro k l
    induction k with
    | zero => rfl
    | succ k ih =>
      rw [List.replicate_succ, List.cons_append, List.dropWhile_cons_of_pos ((hp _).2 rfl), ih]
  have hright : ∀ (k : Nat) (l : List Char),
      (l ++ List.replicate k '/').rdropWhile (fun c => "/".data.contains c) =
        l.rdropWhile (fun c => "/".data.contains c) := by
    intro k l
    induction k with
    | zero => simp
    | succ k ih =>
      rw [List.replicate_succ', ← List.append_assoc,
        List.rdropWhile_concat_pos _ _ _ ((hp _).2 rfl), ih]
  have hcoreL : ∀ l : List Char, (core ++ l).dropWhile (fun c => "/".data.contains c) =
      core ++ l := by
    intro l
    cases core with
    | nil => exact absurd rfl hcore
    | cons x xs =>
      have hx : ¬ ("/".data.contains x) = true := by
        rw [hp]
        intro h
        exact hhead (by rw [h]; rfl)
      rw [List.cons_append, List.dropWhile_cons_of_neg hx]
  have hcoreR : core.rdropWhile (fun c => "/".data.contains c) = core := by
    rw [List.rdropWhile_eq_self_iff]
    intro hne
    have hx : core.getLast hne ≠ '/' := by
      intro h
      exact hlast (by rw [List.getLast?_eq_getLast _ hne, h])
    simpa [hp] using hx
  show (⟨((List.replicate a '/' ++ core ++ List.replicate b '/').dropWhile
      (fun c => "/".data.contains c)).rdropWhile (fun c => "/".data.contains c)⟩ : String) = ⟨core⟩
  rw [List.append_assoc, hleft, hcoreL, hright, hcoreR]

/-- A list of decimal digits holds no slash. -/
theorem digits_no_slash (ds : List Char) (hds : ∀ c ∈ ds, 48 ≤ c.toNat ∧ c.toNat ≤ 57) :
    ∀ c ∈ ds, ¬ (c == '/') = true := by
  intro c hc h
  have h47 : c = '/' := by simpa using h
  have := hds c hc
  rw [h47] at this
  exact absurd this (by decide)

/-- The segments of `chats/<digits>` and of `chats/<digits>/messages`. -/
theorem Split_chats (ds : List Char) (hds : ∀ c ∈ ds, 48 ≤ c.toNat ∧ c.toNat ≤ 57) :
    Split ⟨"chats/".data ++ ds⟩ '/' = ["chats", ⟨ds⟩] ∧
    Split ⟨"chats/".data ++ ds ++ "/messages".data⟩ '/' = ["chats", ⟨ds⟩, "messages"] := by
  have hchats : ∀ c ∈ "chats".data, ¬ (c == '/') = true := by decide
  have hmsgs : ∀ c ∈ "messages".data, ¬ (c == '/') = true := by decide
  have hno := digits_no_slash ds hds
  constructor
  · show (List.splitOnP (fun c => c == '/') ("chats".data ++ '/' :: ds)).map String.mk = _
    rw [List.splitOnP_first _ _ hchats '/' rfl, List.splitOnP_eq_single _ _ hno]
    rfl
  · show (List.splitOnP (fun c => c == '/')
      ("chats".data ++ '/' :: ds ++ '/' :: "messages".data)).map String.mk = _
    have hassoc : "chats".data ++ '/' :: ds ++ '/' :: "messages".data =
        "chats".data ++ '/' :: (ds ++ '/' :: "messages".data) := by
      rw [List.append_assoc]
      rfl
    rw [hassoc, List.splitOnP_first _ _ hchats '/' rfl,
      List.splitOnP_first _ _ hno '/' rfl, List.splitOnP_eq_single _ _ hmsgs]
    rfl

namespace handlers

/-- C18: `extractIDFromPath` returns `n` for `chats/<n>` and `chats/<n>/messages`
between any numbers of slashes, where `<n>` is the decimal representation of a number
below `2 ^ 32`; and it returns an error exactly when the path, trimmed of its slashes,
has fewer than two segments or its second segment is not an unsigned base-10 integer
that fits in 32 bits. -/
theorem extractIDFromPath_contract (path : String) :
    (∀ n a b : Nat, n < 2 ^ 32 →
      extractIDFromPath ⟨List.replicate a '/' ++ ("chats/".data ++ (Nat.repr n).data) ++
        List.replicate b '/'⟩ = (n, none) ∧
      extractIDFromPath ⟨List.replicate a '/' ++
        ("chats/".data ++ (Nat.repr n).data ++ "/messages".data) ++
        List.replicate b '/'⟩ = (n, none)) ∧
    ((extractIDFromPath path).2 ≠ none ↔
      (Split (Trim path "/") '/').length < 2 ∨
      ¬ IsUint32Decimal ((Split (Trim path "/") '/').getD 1 "")) := by
  constructor
  · intro n a b hn
    obtain ⟨hne, hdig, hval⟩ := repr_decimal n
    have hdec : IsUint32Decimal ⟨(Nat.repr n).data⟩ := ⟨hne, hdig, by rw [hval]; exact hn⟩
    have hparse := (strconv.ParseUint_32 ⟨(Nat.repr n).data⟩).2 hdec
    have hvalue : decimalValue (⟨(Nat.repr n).data⟩ : String).data = n := hval
    rw [hvalue] at hparse
    have hlastdigit : (Nat.repr n).data.getLast? ≠ some '/' := by
      rw [List.getLast?_eq_getLast _ hne]
      intro h
      have hmem := List.getLast_mem hne
      rw [Option.some.injEq] at h
      rw [h] at hmem
      exact absurd (hdig _ hmem) (by decide)
    have htrim1 := Trim_slashes a b ("chats/".data ++ (Nat.repr n).data) (by simp)
      (by show some 'c' ≠ some '/'; decide)
      (by rw [List.getLast?_append_of_ne_nil _ hne]; exact hlastdigit)
    have htrim2 := Trim_slashes a b ("chats/".data ++ (Nat.repr n).data ++ "/messages".data)
      (by simp) (by show some 'c' ≠ some '/'; decide)
      (by rw [List.getLast?_append_of_ne_nil _ (by decide)]; decide)
    obtain ⟨hsplit1, hsplit2⟩ := Split_chats (Nat.repr n).data hdig
    constructor
    · rw [extractIDFromPath_of_parts _ "chats" ⟨(Nat.repr n).data⟩ [] (by rw [htrim1, hsplit1]),
        hparse]
      rfl
    · rw [extractIDFromPath_of_parts _ "chats" ⟨(Nat.repr n).data⟩ ["messages"]
        (by rw [htrim2, hsplit2]), hparse]
      rfl
  · by_cases hlen : (Split (Trim path "/") '/').length < 2
    · rw [extractIDFromPath_of_short path hlen]
      simp [hlen]
    · obtain ⟨first, seg, rest, hparts⟩ :
          ∃ first seg rest, Split (Trim path "/") '/' = first :: seg :: rest := by
        cases hp : Split (Trim path "/") '/' with
        | nil => rw [hp] at hlen; simp at hlen
        | cons x xs =>
          cases xs with
          | nil => rw [hp] at hlen; simp at hlen
          | cons y ys => exact ⟨x, y, ys, rfl⟩
      rw [extractIDFromPath_of_parts path first seg rest hparts, hparts]
      have hiff := (strconv.ParseUint_32 seg).1
      simp only [List.getD_cons_succ, List.getD_cons_zero, List.length_cons]
      by_cases hnone : (strconv.ParseUint seg 32).2 = none
      · have hdec := hiff.1 hnone
        simp [hnone, hdec]
      · have hdec : ¬ IsUint32Decimal seg := fun h => hnone (hiff.2 h)
        simp [hnone, hdec]

/-- C18, at concrete inputs: the id 4294967295 is read from `/chats/4294967295/messages/`,
and `/chats/4294967296`, `/chats/+5`, `/chats//messages` and `/chats` are refused. -/
theorem extractIDFromPath_contract_witness :
    extractIDFromPath ⟨List.replicate 1 '/' ++
        ("chats/".data ++ (Nat.repr 4294967295).data ++ "/messages".data) ++
        List.replicate 1 '/'⟩ = (4294967295, none) ∧
    extractIDFromPath "/chats/4294967295/messages/" = (4294967295, none) ∧
    (extractIDFromPath "/chats/4294967296").2 ≠ none ∧
    (extractIDFromPath "/chats/+5").2 ≠ none ∧
    (extractIDFromPath "/chats//messages").2 ≠ none ∧
    (extractIDFromPath "/chats").2 ≠ none :=
  ⟨((extractIDFromPath_contract "").1 4294967295 1 1 (by decide)).2,
    by decide,
    (extractIDFromPath_contract "/chats/4294967296").2.2 (Or.inr (by decide)),
    (extractIDFromPath_contract "/chats/+5").2.2 (Or.inr (by decide)),
    (extractIDFromPath_contract "/chats//messages").2.2 (Or.inr (by decide)),
    (extractIDFromPath_contract "/chats").2.2 (Or.inl (by decide))⟩

end handlers
